import Mathlib

/-!
# dbresolver: statement classification, routing and query coalescing

A shallow embedding of `resolver.go`, `koalescer.go` and `sqlhelpers.go`.

* Go strings are byte sequences (`GoString`, one `Nat` per byte).  The standard
  library functions used by `isDML` are embedded on their single-byte (ASCII)
  code paths: bytes outside ASCII are neither case-mapped nor treated as space.
  What is proved of the classification by opening these functions is stated
  for statements of ASCII bytes (`isASCII`).
* A run of a method either returns, panics (nil dereference, slice or index
  out of range) or blocks forever (`Run`).
* Everything the package reaches outside itself is recorded as an `Effect`
  (hook emissions, balancer draws, statements sent to a backend); what the
  outside answers is read from an `Env`.
* A call is followed from its entry to its return.  The calls other callers
  have in flight at the koalescer are part of the state, each with the result
  it publishes on completion.
* Callers that run concurrently at one koalescer are followed step by step
  (`Flights`): the steps of the method `DoChan` of different callers
  interleave, and the producer of a call returns in a step of its own.
-/

set_option autoImplicit false

namespace dbresolver

/-! ## Go strings -/

/-- A Go string: its bytes. -/
abbrev GoString := List Nat

/-- The bytes of an ASCII literal. -/
def str (s : String) : GoString := s.toList.map Char.toNat

namespace strings

/-- ASCII lower-casing of one byte: `'A'..'Z'` are moved to `'a'..'z'`. -/
def lowerByte (c : Nat) : Nat := if 65 ≤ c ∧ c ≤ 90 then c + 32 else c

/-- The `asciiSpace` table: tab, line feed, vertical tab, form feed,
carriage return and space. -/
def isSpaceByte (c : Nat) : Bool :=
  c == 9 || c == 10 || c == 11 || c == 12 || c == 13 || c == 32

/-- Lower-cases a string, as `strings.ToLower` does on a string of ASCII bytes
(its path for strings without a byte of 0x80 or more).  A string with such a
byte is case-mapped rune by rune in Go, which this definition does not follow;
see `isASCII`. -/
def ToLower (s : GoString) : GoString := s.map lowerByte

/-- Strips leading and trailing white space, as `strings.TrimSpace` does on a
string of ASCII bytes.  The Unicode white space outside ASCII, which Go strips
as well, is not followed; see `isASCII`. -/
def TrimSpace (s : GoString) : GoString :=
  ((s.dropWhile isSpaceByte).reverse.dropWhile isSpaceByte).reverse

/-- Case-insensitive equality, as `strings.EqualFold` decides it byte by byte:
two bytes match when they are equal or when the smaller one is an upper-case
letter and the larger one is its lower-case form; the lengths must agree. -/
def EqualFold : GoString → GoString → Bool
  | [], [] => true
  | sr :: s, tr :: t =>
    if sr = tr then EqualFold s t
    else
      let lo := if tr < sr then tr else sr
      let hi := if tr < sr then sr else tr
      if 65 ≤ lo ∧ lo ≤ 90 ∧ hi = lo + 32 then EqualFold s t else false
  | _, _ => false

/-- Whether `s` starts with `p`, as `strings.HasPrefix`. -/
def HasPrefix : GoString → GoString → Bool
  | _, [] => true
  | [], _ :: _ => false
  | a :: s, b :: p => a == b && HasPrefix s p

/-- Whether `substr` occurs in `s`, as `strings.Contains`. -/
def Contains : GoString → GoString → Bool
  | [], substr => HasPrefix [] substr
  | a :: s, substr => HasPrefix (a :: s) substr || Contains s substr

end strings

/-! ## Outcomes of a call -/

/-- How a call ends: it returns a value, it panics, or it never returns. -/
inductive Run (α : Type) where
  | ret (a : α)
  | panic
  | blocked
  deriving DecidableEq, Repr

/-! ## Statement classification (`resolver.go`) -/

/-- Classifies a statement as data-modifying, as `isDML` does.
`sql[:6]` is only evaluated when `len(sql) > 7`; `sql[6:]` is evaluated
unconditionally and panics when the normalised statement is shorter than six
bytes.  The string functions are those of the ASCII paths, so the value is that
of the source for statements of ASCII bytes (`isASCII`). -/
def isDML (sql : GoString) : Run Bool :=
  let sql := strings.ToLower (strings.TrimSpace sql)
  let isSelect := decide (sql.length > 7) && strings.EqualFold (sql.take 6) (str "select")
  if sql.length < 6 then Run.panic
  else
    let isLockQuery := strings.Contains (sql.drop 6) (str "for update") ||
      strings.Contains (sql.drop 6) (str "for share")
    if isSelect && isLockQuery then Run.ret true
    else Run.ret (!isSelect)

/-! ## Data model -/

/-- A bound argument of a statement (`interface{}` in the source). -/
inductive Value where
  | null
  | int (n : Int)
  | text (s : GoString)
  | bool (b : Bool)
  deriving DecidableEq, Repr

/-- The error values of the package, together with errors made elsewhere. -/
inductive GoError where
  | ErrorInvalidDBMode
  | ErrorInvalidData
  | ErrKoalesceTimeout
  | ErrKoalesceCancelled
  | other (msg : GoString)
  deriving DecidableEq, Repr

/-- A `Row` of the source: the column values of one record. -/
abbrev Row := List Value

/-- The `Rows` of the source: a sequence of rows (`nil` is the empty list). -/
abbrev Rows := List Row

/-- A `sql.Result`. -/
structure SqlResult where
  LastInsertId : Int
  RowsAffected : Int
  deriving DecidableEq, Repr

/-- A `*sql.Rows` cursor, by what its methods answer: `Columns()`, one `Scan`
outcome for every `Next()` that succeeds, and `Err()`. -/
structure SqlRows where
  columns : Except GoError Nat
  scans : List (Except GoError Row)
  err : Option GoError

/-- A `context.Context`, by whether its `Done()` channel is closed. -/
structure Context where
  done : Bool
  deriving DecidableEq, Repr

/-- A `ResolverDB`: a connection pool (`DB`, by identity) with its role tags. -/
structure ResolverDB where
  DB : Nat
  Name : GoString
  IsMaster : Bool
  InSync : Bool
  isUp : Bool
  deriving DecidableEq, Repr

/-- The type `DbActionMode` is a string type; the two modes are package values. -/
abbrev DbActionMode := GoString

def DbWriteMode : DbActionMode := str "write"
def DbReadMode : DbActionMode := str "read"

def EventBeforeDBSelect : GoString := str "before::select_db"
def EventAfterDBSelect : GoString := str "after:select_db"
def EventBeforeQueryRun : GoString := str "before::query_run"

/-- A `Balancer`: the two implementations `resolver.go` names, each built for a
number of replicas, or one supplied by the caller.  What `Get()` returns is an
answer of the environment (`Env.PolicyGet`). -/
inductive Balancer where
  | RoundRobalancer (size : Nat)
  | RandomBalancer (size : Nat)
  | custom (id : Nat)
  deriving DecidableEq, Repr

/-- A `hooks.EventEmitter`, by identity. -/
structure EventEmitter where
  id : Nat
  deriving DecidableEq, Repr

/-- The dynamic value a coalesced producer publishes (`interface{}`): `nil`,
a `Rows`, a `*Row`, or a value of some other type. -/
inductive Dyn where
  | nil
  | rows (r : Rows)
  | row (r : Option Row)
  | other (tag : Nat)
  deriving DecidableEq, Repr

/-- A `singleflight` call that is in flight on behalf of another caller, with
the result it publishes to its waiters when it completes. -/
structure call where
  val : Dyn
  err : Option GoError
  deriving DecidableEq, Repr

/-- The `singleflight.Group`: the map from key to call in flight. -/
abbrev Group := List (GoString × call)

/-- A `KoalesceEvictor`: the two implementations of `koalescer.go`.  Times are
nanosecond counts. -/
inductive KoalesceEvictor where
  | TimeEvictor (duration : Int) (now : Int)
  | NoopEvictor
  deriving DecidableEq, Repr

structure QueryKoalescer where
  g : Group
  evictior : KoalesceEvictor
  deriving DecidableEq, Repr

structure DBConfig where
  Master : Option ResolverDB
  Replicas : List ResolverDB
  Policy : Option Balancer
  DefaultMode : Option DbActionMode
  MaxIdleConnections : Option Int
  MaxOpenConnections : Option Int
  ConnectionMaxLifetime : Option Int
  deriving DecidableEq, Repr

structure Database where
  Config : DBConfig
  Hooks : EventEmitter
  koalescer : Option QueryKoalescer
  deriving DecidableEq, Repr

/-- One argument of a hook emission. -/
inductive Payload where
  | text (s : GoString)
  | values (vs : List Value)
  | int (n : Int)
  deriving DecidableEq, Repr

/-- What a call does outside the package, in order of occurrence. -/
inductive Effect where
  | emit (hooks : EventEmitter) (event : GoString) (payload : List Payload)
  | policyGet (policy : Balancer)
  | dbExec (db : ResolverDB) (ctx : Option Context) (stmt : GoString) (values : List Value)
  | dbQuery (db : ResolverDB) (ctx : Option Context) (stmt : GoString) (values : List Value)
  deriving DecidableEq, Repr

/-- What the outside answers during one call: the hash of `HashValues` (a
helper that is not part of the embedded sources), the index a balancer draws,
the replies of the connection pools, and the reading of the clock. -/
structure Env where
  HashValues : List Value → GoString
  PolicyGet : Balancer → Int
  Exec : ResolverDB → Option Context → GoString → List Value → Option SqlResult × Option GoError
  Query : ResolverDB → Option Context → GoString → List Value → Except GoError SqlRows
  Now : Int

/-- The backends a trace sends a statement to, in order. -/
def backendsOf : List Effect → List ResolverDB
  | [] => []
  | Effect.dbExec db _ _ _ :: t => db :: backendsOf t
  | Effect.dbQuery db _ _ _ :: t => db :: backendsOf t
  | _ :: t => backendsOf t

/-! ## Row marshalling (`sqlhelpers.go`) -/

/-- The scanning loop of `ToRows`. -/
def ToRows.loop (err : Option GoError) : List (Except GoError Row) → Rows → Rows × Option GoError
  | [], results =>
    match err with
    | some e => ([], some e)
    | none => (results, none)
  | Except.error e :: _, _ => ([], some e)
  | Except.ok values :: rest, results => ToRows.loop err rest (results ++ [values])

def ToRows (rows : SqlRows) : Rows × Option GoError :=
  match rows.columns with
  | Except.error e => ([], some e)
  | Except.ok _ => ToRows.loop rows.err rows.scans []

def ToRow (rows : SqlRows) : Option Row × Option GoError :=
  match rows.columns with
  | Except.error e => (none, some e)
  | Except.ok _ =>
    match rows.scans with
    | Except.error e :: _ => (none, some e)
    | Except.ok values :: _ => (some values, none)
    | [] =>
      match rows.err with
      | some e => (none, some e)
      | none => (none, some (GoError.other (str "something_went_wrong")))

/-! ## Query koalescer (`koalescer.go`) -/

/-- Polls the evictor at clock reading `clock`; returns the answer and the
evictor after the poll. -/
def KoalesceEvictor.HasEvicted (t : KoalesceEvictor) (clock : Int) : Bool × KoalesceEvictor :=
  match t with
  | KoalesceEvictor.TimeEvictor duration now =>
    let evictTime := now + duration
    if evictTime > clock then (false, KoalesceEvictor.TimeEvictor duration now)
    else (false, KoalesceEvictor.TimeEvictor duration (now + duration))
  | KoalesceEvictor.NoopEvictor => (false, KoalesceEvictor.NoopEvictor)

/-- The call registered under `key`, if any. -/
def Group.get (g : Group) (key : GoString) : Option call := g.lookup key

/-- Removes `key` from the map, as `singleflight.Group.Forget` does. -/
def Group.Forget (g : Group) (key : GoString) : Group := g.filter (fun p => p.1 != key)

def QueryKoalescer.Forget (ko : QueryKoalescer) (query : GoString) : Option GoError × QueryKoalescer :=
  (none, { ko with g := ko.g.Forget query })

def QueryKoalescer.Evict (ko : QueryKoalescer) (clock : Int) (query : GoString) :
    Bool × QueryKoalescer :=
  let r := ko.evictior.HasEvicted clock
  if r.1 then (true, { g := ko.g.Forget query, evictior := r.2 })
  else (false, { g := ko.g, evictior := r.2 })

/-- Whether the channel of `time.After(d)` can be received from when it is
polled by the `select` that arms it: no time passes between arming and
polling, so only a timer of no duration has fired. -/
def timeAfterReady (d : Int) : Bool := decide (d ≤ 0)

/-- The non-blocking `select` of `ForgetWithContext`: the `default` branch runs
when neither channel is ready. -/
def QueryKoalescer.ForgetWithContext (ko : QueryKoalescer) (ctx : Context) (query : GoString) :
    Option GoError × QueryKoalescer :=
  if ctx.done then (some GoError.ErrKoalesceCancelled, ko)
  else if timeAfterReady (10 * 1000000000) then (some GoError.ErrKoalesceTimeout, ko)
  else (none, { ko with g := ko.g.Forget query })

/-- Sequencing of calls: a panic or a block ends the run. -/
def Run.bind {α β : Type} (r : Run α) (f : α → Run β) : Run β :=
  match r with
  | Run.ret a => f a
  | Run.panic => Run.panic
  | Run.blocked => Run.blocked

/-- A `singleflight.Result`. -/
structure Result where
  Val : Dyn
  Err : Option GoError
  Shared : Bool
  deriving DecidableEq, Repr

/-- What a producer yields when it runs: its return values and its effects. -/
abbrev Producer := Unit → (Dyn × Option GoError) × List Effect

/-- The `singleflight.Group.DoChan` call together with the receive from the
channel it returns.  When a call is in flight under `key` the caller is served
the result that call publishes and `fn` is not run; the owner unregisters the
call before it publishes.  Otherwise the caller owns a new call: `fn` runs
once and the call is unregistered when it completes. -/
def Group.DoChan (g : Group) (key : GoString) (fn : Producer) : Result × Group × List Effect :=
  match g.get key with
  | some c => ({ Val := c.val, Err := c.err, Shared := true }, g.Forget key, [])
  | none =>
    let r := fn ()
    ({ Val := r.1.1, Err := r.1.2, Shared := false }, g, r.2)

/-- The method `DoChan` of the koalescer, with the receive from its channel. -/
def QueryKoalescer.DoChan (ko : QueryKoalescer) (clock : Int) (query : GoString) (fn : Producer) :
    Result × QueryKoalescer × List Effect :=
  let ko1 := (ko.Evict clock query).2
  let r := ko1.g.DoChan query fn
  (r.1, { g := r.2.1, evictior := ko1.evictior }, r.2.2)

/-- The method `DoWithContext`, with the receive from its channel.  When the
context is done the result is sent on a fresh unbuffered channel before the
channel is returned, so the send never finds a receiver. -/
def QueryKoalescer.DoWithContext (ko : QueryKoalescer) (clock : Int) (ctx : Context)
    (query : GoString) (fn : Producer) : Run (Result × QueryKoalescer × List Effect) :=
  if ctx.done then Run.blocked
  else Run.ret (ko.DoChan clock query fn)

/-! ## Router (`resolver.go`) -/

def ToKey (env : Env) (stmt : GoString) (values : List Value) : GoString :=
  stmt ++ str "_" ++ env.HashValues values

/-- The method `WithMode`: the router it returns, and the receiver after the
call.  The method assigns to its local copy `dbConfig` and to the new router
only; the struct literal of the new router names `Config` and `Hooks`. -/
def Database.WithMode (d : Database) (dbMode : DbActionMode) : Database × Database :=
  let dbConfig := { d.Config with DefaultMode := some dbMode }
  let nd : Database := { Config := dbConfig, Hooks := d.Hooks, koalescer := none }
  (nd, d)

def Database.getMaster (d : Database) : Run (ResolverDB × List Effect) :=
  match d.Config.Master with
  | none => Run.panic
  | some master =>
    Run.ret (master, [Effect.emit d.Hooks EventAfterDBSelect
      [Payload.text (str "master"), Payload.text master.Name, Payload.int 0]])

def Database.getReplica (env : Env) (d : Database) : Run (ResolverDB × List Effect) :=
  match d.Config.Policy with
  | none => Run.panic
  | some policy =>
    let nextIdx := env.PolicyGet policy
    if d.Config.Replicas.length > 0 ∧ nextIdx < (d.Config.Replicas.length : Int) then
      if nextIdx < 0 then Run.panic
      else
        match d.Config.Replicas.get? nextIdx.toNat with
        | none => Run.panic
        | some db =>
          Run.ret (db, [Effect.policyGet policy, Effect.emit d.Hooks EventAfterDBSelect
            [Payload.text (str "replica"), Payload.text db.Name, Payload.int nextIdx]])
    else
      match d.Config.Master with
      | none => Run.panic
      | some db =>
        Run.ret (db, [Effect.policyGet policy, Effect.emit d.Hooks EventAfterDBSelect
          [Payload.text (str "replica"), Payload.text db.Name, Payload.int nextIdx]])

def Database.selectSource (env : Env) (d : Database) : Run (ResolverDB × List Effect) :=
  match d.Config.DefaultMode with
  | none => Run.panic
  | some mode =>
    let e := Effect.emit d.Hooks EventBeforeDBSelect [Payload.text mode]
    if DbWriteMode = mode then d.getMaster.bind fun r => Run.ret (r.1, e :: r.2)
    else (d.getReplica env).bind fun r => Run.ret (r.1, e :: r.2)

def Database.isWriteMode (d : Database) : Run Bool :=
  match d.Config.DefaultMode with
  | none => Run.panic
  | some mode => Run.ret (decide (DbWriteMode = mode))

/-- What `Exec` and `ExecContext` return, the router after the call, and the
effects of the call. -/
abbrev ExecRun := Run ((Option SqlResult × Option GoError) × Database × List Effect)

def Database.Exec (env : Env) (d : Database) (stmt : GoString) (values : List Value) : ExecRun :=
  let e := Effect.emit d.Hooks EventBeforeQueryRun [Payload.text stmt, Payload.values values]
  (isDML (strings.ToLower stmt)).bind fun dml =>
  if !dml then
    (d.selectSource env).bind fun src =>
    Run.ret (env.Exec src.1 none stmt values, d,
      e :: src.2 ++ [Effect.dbExec src.1 none stmt values])
  else
    d.isWriteMode.bind fun w =>
    if !w then Run.ret ((none, some GoError.ErrorInvalidDBMode), d, [e])
    else
      d.getMaster.bind fun src =>
      let after : Database :=
        match d.koalescer with
        | some ko => { d with koalescer := some (ko.Forget (ToKey env stmt values)).2 }
        | none => d
      Run.ret (env.Exec src.1 none stmt values, after,
        e :: src.2 ++ [Effect.dbExec src.1 none stmt values])

def Database.ExecContext (env : Env) (d : Database) (ctx : Context) (stmt : GoString)
    (values : List Value) : ExecRun :=
  let e := Effect.emit d.Hooks EventBeforeQueryRun [Payload.text stmt, Payload.values values]
  (isDML (strings.ToLower stmt)).bind fun dml =>
  if !dml then
    (d.selectSource env).bind fun src =>
    Run.ret (env.Exec src.1 (some ctx) stmt values, d,
      e :: src.2 ++ [Effect.dbExec src.1 (some ctx) stmt values])
  else
    d.isWriteMode.bind fun w =>
    if !w then Run.ret ((none, some GoError.ErrorInvalidDBMode), d, [e])
    else
      d.getMaster.bind fun src =>
      let after : Database :=
        match d.koalescer with
        | some ko => { d with koalescer := some (ko.ForgetWithContext ctx (ToKey env stmt values)).2 }
        | none => d
      Run.ret (env.Exec src.1 (some ctx) stmt values, after,
        e :: src.2 ++ [Effect.dbExec src.1 (some ctx) stmt values])

/-- The closure `Query` and `QueryContext` hand to the koalescer, which is also
what they run directly when no koalescer is configured. -/
def rowsProducer (env : Env) (source : ResolverDB) (ctx : Option Context) (stmt : GoString)
    (values : List Value) : Producer := fun _ =>
  match env.Query source ctx stmt values with
  | Except.error err => ((Dyn.nil, some err), [Effect.dbQuery source ctx stmt values])
  | Except.ok res => ((Dyn.rows (ToRows res).1, (ToRows res).2), [Effect.dbQuery source ctx stmt values])

/-- The closure `QueryRow` and `QueryRowContext` hand to the koalescer. -/
def rowProducer (env : Env) (source : ResolverDB) (ctx : Option Context) (stmt : GoString)
    (values : List Value) : Producer := fun _ =>
  match env.Query source ctx stmt values with
  | Except.error err => ((Dyn.nil, some err), [Effect.dbQuery source ctx stmt values])
  | Except.ok res => ((Dyn.row (ToRow res).1, (ToRow res).2), [Effect.dbQuery source ctx stmt values])

/-- What `Query` and `QueryContext` return, the router after the call, and the
effects of the call. -/
abbrev QueryRun := Run ((Rows × Option GoError) × Database × List Effect)

/-- What `QueryRow` and `QueryRowContext` return, the router after the call,
and the effects of the call. -/
abbrev QueryRowRun := Run ((Option Row × Option GoError) × Database × List Effect)

def Database.Query (env : Env) (d : Database) (stmt : GoString) (values : List Value) : QueryRun :=
  let e := Effect.emit d.Hooks EventBeforeQueryRun [Payload.text stmt, Payload.values values]
  (d.selectSource env).bind fun sel =>
  let key : GoString := if d.koalescer.isSome then ToKey env stmt values else []
  (isDML (strings.ToLower stmt)).bind fun dml =>
  (if dml then
      d.getMaster.bind fun m =>
      Run.ret (m.1, m.2, d.koalescer.map fun ko => (ko.Forget key).2)
    else Run.ret (sel.1, [], d.koalescer)).bind fun src =>
  let source := src.1
  let pre := e :: sel.2 ++ src.2.1
  match src.2.2 with
  | none =>
    match env.Query source none stmt values with
    | Except.error err =>
      Run.ret (([], some err), d, pre ++ [Effect.dbQuery source none stmt values])
    | Except.ok res =>
      Run.ret (ToRows res, d, pre ++ [Effect.dbQuery source none stmt values])
  | some ko =>
    let r := ko.DoChan env.Now key (rowsProducer env source none stmt values)
    let after : Database := { d with koalescer := some r.2.1 }
    match r.1.Err with
    | some err => Run.ret (([], some err), after, pre ++ r.2.2)
    | none =>
      match r.1.Val with
      | Dyn.rows rows => Run.ret ((rows, none), after, pre ++ r.2.2)
      | _ =>
        Run.ret (([], some (GoError.other (str "unexpected result type from query koalescer"))),
          after, pre ++ r.2.2)

def Database.QueryContext (env : Env) (d : Database) (ctx : Context) (stmt : GoString)
    (values : List Value) : QueryRun :=
  let e := Effect.emit d.Hooks EventBeforeQueryRun [Payload.text stmt, Payload.values values]
  (d.selectSource env).bind fun sel =>
  let key : GoString := if d.koalescer.isSome then ToKey env stmt values else []
  (isDML (strings.ToLower stmt)).bind fun dml =>
  (if dml then
      d.getMaster.bind fun m =>
      Run.ret (m.1, m.2, d.koalescer.map fun ko => (ko.ForgetWithContext ctx key).2)
    else Run.ret (sel.1, [], d.koalescer)).bind fun src =>
  let source := src.1
  let pre := e :: sel.2 ++ src.2.1
  match src.2.2 with
  | none =>
    match env.Query source (some ctx) stmt values with
    | Except.error err =>
      Run.ret (([], some err), d, pre ++ [Effect.dbQuery source (some ctx) stmt values])
    | Except.ok res =>
      Run.ret (ToRows res, d, pre ++ [Effect.dbQuery source (some ctx) stmt values])
  | some ko =>
    (ko.DoWithContext env.Now ctx key (rowsProducer env source (some ctx) stmt values)).bind fun r =>
    let after : Database := { d with koalescer := some r.2.1 }
    match r.1.Err with
    | some err => Run.ret (([], some err), after, pre ++ r.2.2)
    | none =>
      match r.1.Val with
      | Dyn.rows rows => Run.ret ((rows, none), after, pre ++ r.2.2)
      | _ => Run.ret (([], some GoError.ErrorInvalidData), after, pre ++ r.2.2)

def Database.QueryRow (env : Env) (d : Database) (stmt : GoString) (values : List Value) :
    QueryRowRun :=
  let e := Effect.emit d.Hooks EventBeforeQueryRun [Payload.text stmt, Payload.values values]
  (d.selectSource env).bind fun sel =>
  let key : GoString := if d.koalescer.isSome then ToKey env stmt values else []
  (isDML (strings.ToLower stmt)).bind fun dml =>
  (if dml then
      d.getMaster.bind fun m =>
      Run.ret (m.1, m.2, d.koalescer.map fun ko => (ko.Forget key).2)
    else Run.ret (sel.1, [], d.koalescer)).bind fun src =>
  let source := src.1
  let pre := e :: sel.2 ++ src.2.1
  match src.2.2 with
  | none =>
    match env.Query source none stmt values with
    | Except.error err =>
      Run.ret ((none, some err), d, pre ++ [Effect.dbQuery source none stmt values])
    | Except.ok res =>
      Run.ret (ToRow res, d, pre ++ [Effect.dbQuery source none stmt values])
  | some ko =>
    let r := ko.DoChan env.Now key (rowProducer env source none stmt values)
    let after : Database := { d with koalescer := some r.2.1 }
    match r.1.Err with
    | some err => Run.ret ((none, some err), after, pre ++ r.2.2)
    | none =>
      match r.1.Val with
      | Dyn.row row => Run.ret ((row, none), after, pre ++ r.2.2)
      | _ => Run.ret ((none, some GoError.ErrorInvalidData), after, pre ++ r.2.2)

def Database.QueryRowContext (env : Env) (d : Database) (ctx : Context) (stmt : GoString)
    (values : List Value) : QueryRowRun :=
  let e := Effect.emit d.Hooks EventBeforeQueryRun [Payload.text stmt, Payload.values values]
  (d.selectSource env).bind fun sel =>
  let key : GoString := if d.koalescer.isSome then ToKey env stmt values else []
  (isDML (strings.ToLower stmt)).bind fun dml =>
  (if dml then
      d.getMaster.bind fun m =>
      Run.ret (m.1, m.2, d.koalescer.map fun ko => (ko.ForgetWithContext ctx key).2)
    else Run.ret (sel.1, [], d.koalescer)).bind fun src =>
  let source := src.1
  let pre := e :: sel.2 ++ src.2.1
  match src.2.2 with
  | none =>
    match env.Query source (some ctx) stmt values with
    | Except.error err =>
      Run.ret ((none, some err), d, pre ++ [Effect.dbQuery source (some ctx) stmt values])
    | Except.ok res =>
      Run.ret (ToRow res, d, pre ++ [Effect.dbQuery source (some ctx) stmt values])
  | some ko =>
    (ko.DoWithContext env.Now ctx key (rowProducer env source (some ctx) stmt values)).bind fun r =>
    let after : Database := { d with koalescer := some r.2.1 }
    match r.1.Err with
    | some err => Run.ret ((none, some err), after, pre ++ r.2.2)
    | none =>
      match r.1.Val with
      | Dyn.row row => Run.ret ((row, none), after, pre ++ r.2.2)
      | _ => Run.ret ((none, some GoError.ErrorInvalidData), after, pre ++ r.2.2)

/-! ## Health check (`resolver.go`) -/

/-- The text of an error value, as its `Error()` method gives it. -/
def GoError.Error : GoError → GoString
  | GoError.ErrorInvalidDBMode => str "db mode invalid for query"
  | GoError.ErrorInvalidData => str "unexpected result type from query koalescer"
  | GoError.ErrKoalesceTimeout => str "timeout"
  | GoError.ErrKoalesceCancelled => str "cancelled"
  | GoError.other msg => msg

/-- The text the verb `%v` prints for an `error`: `<nil>` for the nil error. -/
def formatError : Option GoError → GoString
  | none => str "<nil>"
  | some e => e.Error

/-- The method `CheckHealth` of a `ResolverDB`: the error of the ping and the
handle after the call.  `ping` is what `PingContext` answers for a pool. -/
def ResolverDB.CheckHealth (rd : ResolverDB) (ping : Nat → Context → Option GoError)
    (ctx : Context) : Option GoError × ResolverDB :=
  let err := ping rd.DB ctx
  (err, { rd with isUp := err.isNone })

/-- The method `CheckHealth` of a `DBConfig`: the error it returns and the
configuration after the call. -/
def DBConfig.CheckHealth (cfg : DBConfig) (ping : Nat → Context → Option GoError)
    (ctx : Context) : Run (Option GoError × DBConfig) :=
  match cfg.Master with
  | none => Run.panic
  | some master =>
    let m := master.CheckHealth ping ctx
    let masterErr := m.1
    let checked := cfg.Replicas.map fun replica => replica.CheckHealth ping ctx
    let replicaErrors := checked.map fun r => r.1
    let after : DBConfig :=
      { cfg with Master := some m.2, Replicas := checked.map fun r => r.2 }
    if masterErr = none ∧ replicaErrors.length = 0 then Run.ret (none, after)
    else
      let err : Option GoError :=
        match masterErr with
        | some e => some (GoError.other (str "master error: " ++ e.Error ++ str "\n"))
        | none => none
      let err := replicaErrors.foldl
        (fun _ replicaErr =>
          some (GoError.other (str "replica error: " ++ formatError replicaErr ++ str "\n")))
        err
      Run.ret (err, after)

/-! ## Registration (`resolver.go`, `configs.go`) -/

/-- Modelled from the spec: the constructor `NewRoundRobalancer` is not among
the embedded sources; it builds the round-robin variant of the balancer for
`n` replicas. -/
def NewRoundRobalancer (n : Nat) : Balancer := Balancer.RoundRobalancer n

/-- Modelled from the spec: the constructor `NewRandomBalancer` is not among
the embedded sources; it builds the random variant of the balancer for `n`
replicas. -/
def NewRandomBalancer (n : Nat) : Balancer := Balancer.RandomBalancer n

/-- A setter called on a connection pool. -/
inductive PoolCall where
  | SetMaxIdleConns (db : Nat) (n : Int)
  | SetMaxOpenConns (db : Nat) (n : Int)
  | SetConnMaxIdleTime (db : Nat) (d : Int)
  deriving DecidableEq, Repr

def SetConfigDefaults (db : Nat) (config : DBConfig) : List PoolCall :=
  (match config.MaxIdleConnections with
    | some n => [PoolCall.SetMaxIdleConns db n]
    | none => []) ++
  (match config.MaxOpenConnections with
    | some n => [PoolCall.SetMaxOpenConns db n]
    | none => []) ++
  (match config.ConnectionMaxLifetime with
    | some d => [PoolCall.SetConnMaxIdleTime db d]
    | none => [])

def DBConfig.applyConnectionConfig (cfg : DBConfig) : Run (List PoolCall) :=
  match cfg.Master with
  | none => Run.panic
  | some master =>
    Run.ret (SetConfigDefaults master.DB cfg ++
      (cfg.Replicas.map fun replica => SetConfigDefaults replica.DB cfg).flatten)

/-- A `DataBaseOpts`: a function applied to the router under construction. -/
abbrev DataBaseOpts := Database → Database

def WithQueryQualescer (koalescer : Option QueryKoalescer) : DataBaseOpts :=
  fun d => { d with koalescer := koalescer }

def WithHooks (eventHandler : EventEmitter) : DataBaseOpts :=
  fun d => { d with Hooks := eventHandler }

/-- How `Register` ends: `log.Fatal` ends the process, or the router is
returned after the pool setters have been called. -/
inductive Registered where
  | fatal (msg : GoString)
  | ok (database : Database) (pool : List PoolCall)
  deriving DecidableEq, Repr

/-- The function `Register`.  `store` is the emitter `hooks.NewEventStore()`
makes.  The type switch on `config.Policy` has a case for each of the two
balancer types and a default for every other value, nil included. -/
def Register (store : EventEmitter) (config : DBConfig) (opts : List DataBaseOpts) :
    Run Registered :=
  match config.Master with
  | none => Run.ret (Registered.fatal (str "config.Master db cannot be nil"))
  | some _ =>
    let balancer : Balancer :=
      match config.Policy with
      | some (Balancer.RandomBalancer _) => NewRoundRobalancer config.Replicas.length
      | some (Balancer.RoundRobalancer _) => NewRandomBalancer config.Replicas.length
      | _ => NewRoundRobalancer config.Replicas.length
    let config := { config with Policy := some balancer }
    let config :=
      match config.DefaultMode with
      | none => { config with DefaultMode := some DbReadMode }
      | some _ => config
    let database : Database := { Config := config, Hooks := store, koalescer := none }
    database.Config.applyConnectionConfig.bind fun pool =>
    Run.ret (Registered.ok (opts.foldl (fun d opt => opt d) database) pool)

/-! ## Calls in flight under concurrent callers (`koalescer.go`) -/

/-- A call of the `singleflight.Group` whose producer is running: the values
the producer returns, and the channels handed to the callers that wait for
them, in order of arrival. -/
structure InFlight where
  val : Dyn
  err : Option GoError
  chans : List Nat
  deriving DecidableEq, Repr

/-- A koalescer shared by concurrent callers: its evictor, the map of the group
from key to call, the calls that were forgotten while their producer was
running, the callers whose producer has been invoked, and what each channel
has received. -/
structure Flights where
  evictior : KoalesceEvictor
  m : List (GoString × InFlight)
  forgotten : List InFlight
  invoked : List Nat
  received : List (Nat × Result)
  deriving DecidableEq, Repr

/-- The call the map holds under `key`. -/
def Flights.get (s : Flights) (key : GoString) : Option InFlight := s.m.lookup key

/-- The method `Forget` of the group: the key is removed from the map; the
call goes on without it. -/
def Flights.Forget (s : Flights) (key : GoString) : Flights :=
  match s.m.lookup key with
  | none => s
  | some c => { s with m := s.m.filter (fun p => p.1 != key), forgotten := s.forgotten ++ [c] }

/-- The statement `ko.Evict(query)` of the method `DoChan`. -/
def Flights.Evict (s : Flights) (clock : Int) (query : GoString) : Flights :=
  let r := s.evictior.HasEvicted clock
  if r.1 then { s.Forget query with evictior := r.2 }
  else { s with evictior := r.2 }

/-- Adds a channel to the call under `key`. -/
def addChan (key : GoString) (ch : Nat) : List (GoString × InFlight) → List (GoString × InFlight)
  | [] => []
  | (k, c) :: rest =>
    if key == k then (k, { c with chans := c.chans ++ [ch] }) :: rest
    else (k, c) :: addChan key ch rest

/-- The statement `ko.g.DoChan(query, fn)` of the method `DoChan`, which the
group runs under its mutex: a caller that finds a call under the key adds its
channel `ch` to it; otherwise a call is registered with that channel and its
producer is invoked.  The pair `fn` is what the producer of this caller
returns when it is invoked. -/
def Flights.DoChan (s : Flights) (ch : Nat) (query : GoString) (fn : Dyn × Option GoError) :
    Flights :=
  match s.m.lookup query with
  | some _ => { s with m := addChan query ch s.m }
  | none =>
    { s with
      m := s.m ++ [(query, { val := fn.1, err := fn.2, chans := [ch] })]
      invoked := s.invoked ++ [ch] }

/-- What a call sends on its channels when its producer has returned. -/
def InFlight.publish (c : InFlight) : List (Nat × Result) :=
  c.chans.map fun ch => (ch, { Val := c.val, Err := c.err, Shared := decide (1 < c.chans.length) })

/-- The producer of the call under `key` returns: the call leaves the map and
sends its result on every channel. -/
def Flights.finish (s : Flights) (key : GoString) : Flights :=
  match s.m.lookup key with
  | none => s
  | some c =>
    { s with m := s.m.filter (fun p => p.1 != key), received := s.received ++ c.publish }

/-- The producer of a forgotten call returns. -/
def Flights.finishForgotten (s : Flights) (i : Nat) : Flights :=
  match s.forgotten.get? i with
  | none => s
  | some c => { s with forgotten := s.forgotten.eraseIdx i, received := s.received ++ c.publish }

/-- The steps concurrent callers take at a koalescer.  A call of the method
`DoChan` is an `evict` step followed, not necessarily at once, by a `doChan`
step. -/
inductive Event where
  | evict (clock : Int) (query : GoString)
  | doChan (ch : Nat) (query : GoString) (fn : Dyn × Option GoError)
  | finish (query : GoString)
  | finishForgotten (i : Nat)
  deriving DecidableEq, Repr

def Flights.step (s : Flights) : Event → Flights
  | Event.evict clock query => s.Evict clock query
  | Event.doChan ch query fn => s.DoChan ch query fn
  | Event.finish query => s.finish query
  | Event.finishForgotten i => s.finishForgotten i

/-- The state after a schedule of steps. -/
def Flights.run (s : Flights) : List Event → Flights
  | [] => s
  | e :: rest => (s.step e).run rest

/-- Whether a step belongs to a call of `DoChan` with the key `key`. -/
def Event.onKey (key : GoString) : Event → Bool
  | Event.evict _ query => query == key
  | Event.doChan _ query _ => query == key
  | _ => false

/-- The channels of the `doChan` steps of a schedule, in order. -/
def channelsOf : List Event → List Nat
  | [] => []
  | Event.doChan ch _ _ :: rest => ch :: channelsOf rest
  | _ :: rest => channelsOf rest

/-- A koalescer at rest, with the evictor of the tests. -/
def sampleFlights : Flights :=
  { evictior := KoalesceEvictor.NoopEvictor, m := [], forgotten := [], invoked := [],
    received := [] }

/-- The steps of two callers of `DoChan("adder", _)`, interleaved. -/
def sampleSchedule : List Event :=
  [Event.evict 1 (str "adder"), Event.evict 2 (str "adder"),
    Event.doChan 3 (str "adder") (Dyn.other 3, none),
    Event.doChan 2 (str "adder") (Dyn.other 2, none)]

/-! ## Sample topology -/

def sampleMaster : ResolverDB :=
  { DB := 0, Name := str "master", IsMaster := true, InSync := true, isUp := false }

def sampleReplica : ResolverDB :=
  { DB := 1, Name := str "replica", IsMaster := false, InSync := false, isUp := false }

/-- An environment in which every backend answers one row, the balancer draws
index 0 and the hash of the arguments is empty. -/
def sampleEnv : Env :=
  { HashValues := fun _ => []
    PolicyGet := fun _ => 0
    Exec := fun _ _ _ _ => (some { LastInsertId := 1, RowsAffected := 1 }, none)
    Query := fun _ _ _ _ =>
      Except.ok { columns := Except.ok 1, scans := [Except.ok [Value.int 7]], err := none }
    Now := 0 }

/-- A router as `Register` leaves it for a master and one replica: Read mode,
round-robin policy, no koalescer. -/
def sampleDB : Database :=
  { Config :=
      { Master := some sampleMaster
        Replicas := [sampleReplica]
        Policy := some (Balancer.RoundRobalancer 1)
        DefaultMode := some DbReadMode
        MaxIdleConnections := none
        MaxOpenConnections := none
        ConnectionMaxLifetime := none }
    Hooks := { id := 0 }
    koalescer := none }

/-- A koalescer with one call in flight, under the key of `sampleInsert`. -/
def sampleKoalescer : QueryKoalescer :=
  { g := [(str "INSERT INTO test (name) VALUES ('a')_", { val := Dyn.rows [], err := none }),
      (str "other", { val := Dyn.other 1, err := none })]
    evictior := KoalesceEvictor.NoopEvictor }

/-- The sample router with the sample koalescer. -/
def sampleDBKo : Database := { sampleDB with koalescer := some sampleKoalescer }

/-- The sample router with the sample koalescer, in Write mode. -/
def sampleWriteDBKo : Database :=
  { sampleDBKo with Config := { sampleDBKo.Config with DefaultMode := some DbWriteMode } }

/-- A koalescer whose time evictor opened its window at 0 for 1000 ns. -/
def sampleTimedKoalescer : QueryKoalescer :=
  { g := [(str "k", { val := Dyn.other 1, err := none })]
    evictior := KoalesceEvictor.TimeEvictor 1000 0 }

def sampleInsert : GoString := str "INSERT INTO test (name) VALUES ('a')"

def sampleSelect : GoString := str "SELECT name FROM test"

def sampleLock : GoString := str "SELECT name FROM test FOR UPDATE"

/-! ## Predicates of the specification -/

/-- The text contains the pattern in some letter case: a stretch of the text
equals the pattern under case folding. -/
def containsAnyCase (text pat : GoString) : Prop :=
  ∃ pre mid post, text = pre ++ mid ++ post ∧ strings.EqualFold mid pat = true

/-- The statement is made of ASCII bytes, below `utf8.RuneSelf`.  On such
statements the embedded string functions are those of the standard library. -/
def isASCII (s : GoString) : Bool := s.all fun b => decide (b < 128)

/-- The trimmed statement begins with the keyword `SELECT` in some letter case. -/
def beginsWithSelect (s : GoString) : Prop :=
  strings.EqualFold ((strings.TrimSpace s).take 6) (str "select") = true

instance (s : GoString) : Decidable (beginsWithSelect s) := by
  unfold beginsWithSelect
  infer_instance

/-- The text after the `SELECT` keyword holds a locking clause, `for update`
or `for share`, in some letter case. -/
def hasLockClause (s : GoString) : Prop :=
  containsAnyCase ((strings.TrimSpace s).drop 6) (str "for update") ∨
    containsAnyCase ((strings.TrimSpace s).drop 6) (str "for share")

/-- The backend the specification names for a read-only statement: the master
in Write mode; in Read mode the replica at the index the policy draws, when
that index lies within the replica list, and the master when the list is
empty. -/
def routedTo (env : Env) (d : Database) (db : ResolverDB) : Prop :=
  (d.Config.DefaultMode = some DbWriteMode ∧ d.Config.Master = some db) ∨
    (d.Config.DefaultMode = some DbReadMode ∧
      ∃ policy, d.Config.Policy = some policy ∧ 0 ≤ env.PolicyGet policy ∧
        env.PolicyGet policy < (d.Config.Replicas.length : Int) ∧
        d.Config.Replicas.get? (env.PolicyGet policy).toNat = some db) ∨
    (d.Config.DefaultMode = some DbReadMode ∧ (∃ policy, d.Config.Policy = some policy) ∧
      d.Config.Replicas = [] ∧ d.Config.Master = some db)

/-- Whether a call is in flight at the koalescer of `d` under the key of the
statement and its arguments. -/
def Database.inFlight (env : Env) (d : Database) (stmt : GoString) (values : List Value) : Bool :=
  match d.koalescer with
  | some ko => (ko.g.get (ToKey env stmt values)).isSome
  | none => false

/-- What `Query` and `QueryContext` make of the reply of the backend when
they run the statement themselves. -/
def rowsOutcome (reply : Except GoError SqlRows) : Rows × Option GoError :=
  match reply with
  | Except.error err => ([], some err)
  | Except.ok res => ToRows res

/-- What `QueryRow` and `QueryRowContext` make of the reply of the backend
when they run the statement themselves. -/
def rowOutcome (reply : Except GoError SqlRows) : Option Row × Option GoError :=
  match reply with
  | Except.error err => (none, some err)
  | Except.ok res => ToRow res

/-- The koalescer after a call that forgets `key` and then runs a producer
under it: the group under `key` is gone and the evictor has been polled. -/
def QueryKoalescer.afterRun (ko : QueryKoalescer) (clock : Int) (key : GoString) :
    QueryKoalescer :=
  { g := ko.g.Forget key, evictior := (ko.evictior.HasEvicted clock).2 }

/-! ## Lemmas on strings -/

namespace strings

theorem lowerByte_idem (c : Nat) : lowerByte (lowerByte c) = lowerByte c := by
  unfold lowerByte
  split_ifs <;> omega

theorem ToLower_idem (s : GoString) : ToLower (ToLower s) = ToLower s := by
  simp [ToLower, List.map_map, Function.comp_def, lowerByte_idem]

theorem ToLower_take (n : Nat) (s : GoString) : (ToLower s).take n = ToLower (s.take n) := by
  simp [ToLower, List.map_take]

theorem ToLower_drop (n : Nat) (s : GoString) : (ToLower s).drop n = ToLower (s.drop n) := by
  simp [ToLower, List.map_drop]

theorem ToLower_length (s : GoString) : (ToLower s).length = s.length := by
  simp [ToLower]

/-- Two strings are equal under folding exactly when their lower-cased forms
coincide. -/
theorem EqualFold_iff (s t : GoString) : EqualFold s t = true ↔ ToLower s = ToLower t := by
  induction s generalizing t with
  | nil => cases t <;> simp [EqualFold, ToLower]
  | cons a s ih =>
    cases t with
    | nil => simp [EqualFold, ToLower]
    | cons b t =>
      have ih2 := ih t
      simp only [ToLower] at ih2
      simp only [EqualFold, ToLower, List.map_cons, List.cons.injEq]
      by_cases hab : a = b
      · subst hab
        simp [ih2]
      · simp only [hab, if_false]
        by_cases hfold : 65 ≤ (if b < a then b else a) ∧ (if b < a then b else a) ≤ 90 ∧
            (if b < a then a else b) = (if b < a then b else a) + 32
        · rw [if_pos hfold, ih2]
          have hl : lowerByte a = lowerByte b := by
            unfold lowerByte
            split_ifs at hfold ⊢ <;> omega
          simp [hl]
        · rw [if_neg hfold]
          have hl : lowerByte a ≠ lowerByte b := by
            unfold lowerByte
            split_ifs at hfold ⊢ <;> omega
          simp [hl]

theorem HasPrefix_iff (s p : GoString) : HasPrefix s p = true ↔ ∃ post, s = p ++ post := by
  induction s generalizing p with
  | nil => cases p <;> simp [HasPrefix]
  | cons a s ih =>
    cases p with
    | nil => simp [HasPrefix]
    | cons b p =>
      simp only [HasPrefix, Bool.and_eq_true, beq_iff_eq, ih, List.cons_append, List.cons.injEq]
      constructor
      · rintro ⟨h1, post, h2⟩
        exact ⟨post, h1, h2⟩
      · rintro ⟨post, h1, h2⟩
        exact ⟨h1, post, h2⟩

theorem Contains_iff (s sub : GoString) :
    Contains s sub = true ↔ ∃ pre post, s = pre ++ sub ++ post := by
  induction s with
  | nil =>
    simp only [Contains, HasPrefix_iff]
    constructor
    · rintro ⟨post, h⟩
      exact ⟨[], post, by simpa using h⟩
    · rintro ⟨pre, post, h⟩
      have h2 := h.symm
      simp only [List.append_eq_nil] at h2
      exact ⟨[], by simp [h2.1.2]⟩
  | cons a s ih =>
    simp only [Contains, Bool.or_eq_true, HasPrefix_iff, ih]
    constructor
    · rintro (⟨post, h⟩ | ⟨pre, post, h⟩)
      · exact ⟨[], post, by simpa using h⟩
      · exact ⟨a :: pre, post, by simp [h]⟩
    · rintro ⟨pre, post, h⟩
      cases pre with
      | nil => exact Or.inl ⟨post, by simpa using h⟩
      | cons b pre =>
        simp only [List.cons_append, List.cons.injEq] at h
        exact Or.inr ⟨pre, post, by simpa using h.2⟩

end strings

theorem containsAnyCase_iff (text pat : GoString) (hp : strings.ToLower pat = pat) :
    containsAnyCase text pat ↔ strings.Contains (strings.ToLower text) pat = true := by
  rw [strings.Contains_iff]
  constructor
  · rintro ⟨pre, mid, post, h, hfold⟩
    rw [strings.EqualFold_iff, hp] at hfold
    refine ⟨strings.ToLower pre, strings.ToLower post, ?_⟩
    rw [h, ← hfold]
    simp [strings.ToLower]
  · rintro ⟨pre, post, h⟩
    unfold strings.ToLower at h
    rw [List.map_eq_append_iff] at h
    obtain ⟨l1, l2, h1, h2, h3⟩ := h
    rw [List.map_eq_append_iff] at h2
    obtain ⟨l3, l4, h4, h5, h6⟩ := h2
    refine ⟨l3, l4, l2, ?_, ?_⟩
    · rw [h1, h4]
    · rw [strings.EqualFold_iff, hp]
      exact h6

theorem hasLockClause_iff (s : GoString) :
    hasLockClause s ↔
      (strings.Contains ((strings.ToLower (strings.TrimSpace s)).drop 6) (str "for update") ||
        strings.Contains ((strings.ToLower (strings.TrimSpace s)).drop 6) (str "for share")) = true := by
  unfold hasLockClause
  rw [containsAnyCase_iff _ _ (by decide), containsAnyCase_iff _ _ (by decide),
    strings.ToLower_drop, Bool.or_eq_true]

theorem beginsWithSelect_iff (s : GoString) :
    beginsWithSelect s ↔
      strings.EqualFold ((strings.ToLower (strings.TrimSpace s)).take 6) (str "select") = true := by
  unfold beginsWithSelect
  rw [strings.EqualFold_iff, strings.EqualFold_iff, strings.ToLower_take, strings.ToLower_idem]

theorem beginsWithSelect_length (s : GoString) (h : beginsWithSelect s) :
    6 ≤ (strings.TrimSpace s).length := by
  unfold beginsWithSelect at h
  rw [strings.EqualFold_iff] at h
  have hl := congrArg List.length h
  rw [strings.ToLower_length, strings.ToLower_length] at hl
  have h6 : (str "select").length = 6 := by decide
  rw [h6, List.length_take] at hl
  omega

/-- An ASCII statement of at least six bytes that does not begin with `select`
is classified as data-modifying. -/
theorem isDML_of_not_select (s : GoString) (_hascii : isASCII s = true)
    (hlen : 6 ≤ (strings.TrimSpace s).length)
    (hsel : ¬ beginsWithSelect s) : isDML s = Run.ret true := by
  rw [beginsWithSelect_iff] at hsel
  have hl : ¬ (strings.ToLower (strings.TrimSpace s)).length < 6 := by
    rw [strings.ToLower_length]; omega
  simp only [isDML, hl, if_false]
  simp [hsel]

/-! ## Statement classification -/

/-- C2 (defect): `isDML` does not return on a statement whose trimmed form is
shorter than six bytes: on `BEGIN`, `END`, the empty string and a blank string
the slice `sql[6:]` is out of range and the call panics. -/
theorem isDML_short_statement_panics :
    isDML (str "BEGIN") = Run.panic ∧ isDML (str "END") = Run.panic ∧
      isDML (str "") = Run.panic ∧ isDML (str "   ") = Run.panic := by
  decide

/-- C3 (as stated, refuted): the ASCII statement `SELECT*` begins with `SELECT`
and has no locking clause, yet `isDML` returns true on it. -/
theorem isDML_select_star_is_dml :
    isASCII (str "SELECT*") = true ∧
      beginsWithSelect (str "SELECT*") ∧ ¬ hasLockClause (str "SELECT*") ∧
      isDML (str "SELECT*") = Run.ret true := by
  refine ⟨by decide, by decide, ?_, by decide⟩
  rw [hasLockClause_iff]
  decide

/-- C3 (amended): for a statement of ASCII bytes whose trimmed form begins with
`SELECT` in any letter case: when the trimmed form is longer than seven bytes,
`isDML` returns true if the text after the keyword holds `for update` or
`for share` in any letter case and false otherwise; when it has six or seven
bytes, `isDML` returns true.  The statement is restricted to ASCII bytes
because outside them Go lower-cases and trims by rune, which can change the
length the guard `len(sql) > 7` looks at. -/
theorem isDML_select (s : GoString) (_hascii : isASCII s = true) (hsel : beginsWithSelect s) :
    (7 < (strings.TrimSpace s).length →
      (hasLockClause s → isDML s = Run.ret true) ∧
        (¬ hasLockClause s → isDML s = Run.ret false)) ∧
      ((strings.TrimSpace s).length ≤ 7 → isDML s = Run.ret true) := by
  have h6 := beginsWithSelect_length s hsel
  have hl : ¬ (strings.ToLower (strings.TrimSpace s)).length < 6 := by
    rw [strings.ToLower_length]; omega
  rw [beginsWithSelect_iff] at hsel
  rw [hasLockClause_iff]
  refine ⟨fun h7 => ⟨fun hlock => ?_, fun hlock => ?_⟩, fun h7 => ?_⟩
  · simp only [isDML, hl, if_false]
    simp [hsel, strings.ToLower_length, h7, hlock]
  · simp only [isDML, hl, if_false]
    simp only [Bool.not_eq_true] at hlock
    simp [hsel, strings.ToLower_length, h7, hlock]
  · have h7b : ¬ 7 < (strings.TrimSpace s).length := by omega
    simp only [isDML, hl, if_false]
    simp [strings.ToLower_length, h7b]

theorem isDML_select_witness :
    isASCII (str " Select * from t For Update ") = true ∧
      beginsWithSelect (str " Select * from t For Update ") ∧
      ((7 < (strings.TrimSpace (str " Select * from t For Update ")).length →
        (hasLockClause (str " Select * from t For Update ") →
            isDML (str " Select * from t For Update ") = Run.ret true) ∧
          (¬ hasLockClause (str " Select * from t For Update ") →
            isDML (str " Select * from t For Update ") = Run.ret false)) ∧
        ((strings.TrimSpace (str " Select * from t For Update ")).length ≤ 7 →
          isDML (str " Select * from t For Update ") = Run.ret true)) :=
  ⟨by decide, by decide,
    isDML_select (str " Select * from t For Update ") (by decide) (by decide)⟩

/-! ## Lemmas on the router -/

theorem backendsOf_append (a b : List Effect) :
    backendsOf (a ++ b) = backendsOf a ++ backendsOf b := by
  induction a with
  | nil => rfl
  | cons e a ih => cases e <;> simp [backendsOf, ih]

theorem DbWriteMode_ne_DbReadMode : DbWriteMode ≠ DbReadMode := by decide

/-! ## Writes in Read mode -/

/-- C1: in Read mode, `Exec` and `ExecContext` of a statement that `isDML`
classifies as data-modifying return a nil result and `ErrorInvalidDBMode`;
the only effect is the hook emission that precedes classification (no
statement reaches the master or a replica), and the router, its koalescer
included, is as before. -/
theorem Exec_dml_in_read_mode (env : Env) (d : Database) (ctx : Context) (stmt : GoString)
    (values : List Value) (hmode : d.Config.DefaultMode = some DbReadMode)
    (hdml : isDML (strings.ToLower stmt) = Run.ret true) :
    d.Exec env stmt values = Run.ret ((none, some GoError.ErrorInvalidDBMode), d,
        [Effect.emit d.Hooks EventBeforeQueryRun [Payload.text stmt, Payload.values values]]) ∧
      d.ExecContext env ctx stmt values = Run.ret ((none, some GoError.ErrorInvalidDBMode), d,
        [Effect.emit d.Hooks EventBeforeQueryRun [Payload.text stmt, Payload.values values]]) ∧
      backendsOf
        [Effect.emit d.Hooks EventBeforeQueryRun [Payload.text stmt, Payload.values values]] = [] := by
  refine ⟨?_, ?_, rfl⟩
  · simp [Database.Exec, hdml, Run.bind, Database.isWriteMode, hmode, DbWriteMode_ne_DbReadMode]
  · simp [Database.ExecContext, hdml, Run.bind, Database.isWriteMode, hmode,
      DbWriteMode_ne_DbReadMode]

theorem Exec_dml_in_read_mode_witness :
    sampleDBKo.Config.DefaultMode = some DbReadMode ∧
      isDML (strings.ToLower sampleInsert) = Run.ret true ∧
      sampleDBKo.Exec sampleEnv sampleInsert [] =
        Run.ret ((none, some GoError.ErrorInvalidDBMode), sampleDBKo,
          [Effect.emit sampleDBKo.Hooks EventBeforeQueryRun
            [Payload.text sampleInsert, Payload.values []]]) :=
  ⟨rfl, by decide,
    (Exec_dml_in_read_mode sampleEnv sampleDBKo { done := false } sampleInsert [] rfl
      (by decide)).1⟩

/-! ## Routing of read-only statements -/

theorem HasEvicted_fst (t : KoalesceEvictor) (clock : Int) : (t.HasEvicted clock).1 = false := by
  cases t with
  | TimeEvictor duration now =>
    simp only [KoalesceEvictor.HasEvicted]
    split_ifs <;> rfl
  | NoopEvictor => rfl

theorem Evict_g (ko : QueryKoalescer) (clock : Int) (query : GoString) :
    (ko.Evict clock query).2.g = ko.g := by
  simp [QueryKoalescer.Evict, HasEvicted_fst]

theorem selectSource_write (env : Env) (d : Database) (master : ResolverDB)
    (hm : d.Config.DefaultMode = some DbWriteMode) (hmaster : d.Config.Master = some master) :
    d.selectSource env = Run.ret (master,
      [Effect.emit d.Hooks EventBeforeDBSelect [Payload.text DbWriteMode],
        Effect.emit d.Hooks EventAfterDBSelect
          [Payload.text (str "master"), Payload.text master.Name, Payload.int 0]]) := by
  simp only [Database.selectSource, hm, if_true, Database.getMaster, hmaster, Run.bind]

theorem selectSource_replica (env : Env) (d : Database) (policy : Balancer) (db : ResolverDB)
    (hm : d.Config.DefaultMode = some DbReadMode) (hp : d.Config.Policy = some policy)
    (h0 : 0 ≤ env.PolicyGet policy)
    (hlt : env.PolicyGet policy < (d.Config.Replicas.length : Int))
    (hget : d.Config.Replicas.get? (env.PolicyGet policy).toNat = some db) :
    d.selectSource env = Run.ret (db,
      [Effect.emit d.Hooks EventBeforeDBSelect [Payload.text DbReadMode],
        Effect.policyGet policy,
        Effect.emit d.Hooks EventAfterDBSelect
          [Payload.text (str "replica"), Payload.text db.Name,
            Payload.int (env.PolicyGet policy)]]) := by
  have hpos : 0 < d.Config.Replicas.length := by omega
  have hneg : ¬ env.PolicyGet policy < 0 := by omega
  simp only [Database.selectSource, hm, DbWriteMode_ne_DbReadMode, if_false,
    Database.getReplica, hp, hpos, hlt, hneg, gt_iff_lt, and_self, if_true, hget, Run.bind]

theorem selectSource_no_replica (env : Env) (d : Database) (policy : Balancer)
    (master : ResolverDB) (hm : d.Config.DefaultMode = some DbReadMode)
    (hp : d.Config.Policy = some policy) (hnil : d.Config.Replicas = [])
    (hmaster : d.Config.Master = some master) :
    d.selectSource env = Run.ret (master,
      [Effect.emit d.Hooks EventBeforeDBSelect [Payload.text DbReadMode],
        Effect.policyGet policy,
        Effect.emit d.Hooks EventAfterDBSelect
          [Payload.text (str "replica"), Payload.text master.Name,
            Payload.int (env.PolicyGet policy)]]) := by
  simp only [Database.selectSource, hm, DbWriteMode_ne_DbReadMode, if_false,
    Database.getReplica, hp, hnil, List.length_nil, gt_iff_lt, lt_self_iff_false, false_and,
    hmaster, Run.bind]

theorem selectSource_of_routedTo (env : Env) (d : Database) (db : ResolverDB)
    (h : routedTo env d db) :
    ∃ es, d.selectSource env = Run.ret (db, es) ∧ backendsOf es = [] := by
  rcases h with ⟨hm, hmaster⟩ | ⟨hm, policy, hp, h0, hlt, hget⟩ | ⟨hm, ⟨policy, hp⟩, hnil, hmaster⟩
  · exact ⟨_, selectSource_write env d db hm hmaster, rfl⟩
  · exact ⟨_, selectSource_replica env d policy db hm hp h0 hlt hget, rfl⟩
  · exact ⟨_, selectSource_no_replica env d policy db hm hp hnil hmaster, rfl⟩

theorem DoChan_in_flight (ko : QueryKoalescer) (clock : Int) (key : GoString) (fn : Producer)
    (c : call) (h : ko.g.get key = some c) :
    ko.DoChan clock key fn =
      ({ Val := c.val, Err := c.err, Shared := true },
        { g := ko.g.Forget key, evictior := (ko.Evict clock key).2.evictior }, []) := by
  simp [QueryKoalescer.DoChan, Group.DoChan, Evict_g, h]

theorem DoChan_fresh (ko : QueryKoalescer) (clock : Int) (key : GoString) (fn : Producer)
    (h : ko.g.get key = none) :
    ko.DoChan clock key fn =
      ({ Val := (fn ()).1.1, Err := (fn ()).1.2, Shared := false },
        { g := ko.g, evictior := (ko.Evict clock key).2.evictior }, (fn ()).2) := by
  simp [QueryKoalescer.DoChan, Group.DoChan, Evict_g, h]

theorem rowsProducer_effects (env : Env) (db : ResolverDB) (ctx : Option Context)
    (stmt : GoString) (values : List Value) :
    (rowsProducer env db ctx stmt values ()).2 = [Effect.dbQuery db ctx stmt values] := by
  unfold rowsProducer
  split <;> rfl

theorem rowProducer_effects (env : Env) (db : ResolverDB) (ctx : Option Context)
    (stmt : GoString) (values : List Value) :
    (rowProducer env db ctx stmt values ()).2 = [Effect.dbQuery db ctx stmt values] := by
  unfold rowProducer
  split <;> rfl

theorem Query_read_only (env : Env) (d : Database) (stmt : GoString) (values : List Value)
    (db : ResolverDB) (es : List Effect) (hsel : d.selectSource env = Run.ret (db, es))
    (hes : backendsOf es = []) (hdml : isDML (strings.ToLower stmt) = Run.ret false) :
    ∃ r, d.Query env stmt values = Run.ret r ∧
      backendsOf r.2.2 = if d.inFlight env stmt values then [] else [db] := by
  cases hk : d.koalescer with
  | none =>
    cases hq : env.Query db none stmt values with
    | error err =>
      simp [Database.Query, hsel, hdml, Run.bind, hk, hq, backendsOf_append, hes, backendsOf,
        Database.inFlight]
    | ok res =>
      simp [Database.Query, hsel, hdml, Run.bind, hk, hq, backendsOf_append, hes, backendsOf,
        Database.inFlight]
  | some ko =>
    cases hg : ko.g.get (ToKey env stmt values) with
    | none =>
      have hin : d.inFlight env stmt values = false := by simp [Database.inFlight, hk, hg]
      simp only [Database.Query, hsel, hdml, Run.bind, hk, Option.isSome_some, if_true,
        Bool.false_eq_true, if_false, DoChan_fresh _ _ _ _ hg, hin]
      repeat' split
      all_goals simp [backendsOf_append, hes, backendsOf, rowsProducer_effects]
    | some c =>
      have hin : d.inFlight env stmt values = true := by simp [Database.inFlight, hk, hg]
      simp only [Database.Query, hsel, hdml, Run.bind, hk, Option.isSome_some, if_true,
        Bool.false_eq_true, if_false, DoChan_in_flight _ _ _ _ c hg, hin]
      repeat' split
      all_goals simp [backendsOf_append, hes, backendsOf]

theorem QueryRow_read_only (env : Env) (d : Database) (stmt : GoString) (values : List Value)
    (db : ResolverDB) (es : List Effect) (hsel : d.selectSource env = Run.ret (db, es))
    (hes : backendsOf es = []) (hdml : isDML (strings.ToLower stmt) = Run.ret false) :
    ∃ r, d.QueryRow env stmt values = Run.ret r ∧
      backendsOf r.2.2 = if d.inFlight env stmt values then [] else [db] := by
  cases hk : d.koalescer with
  | none =>
    cases hq : env.Query db none stmt values with
    | error err =>
      simp [Database.QueryRow, hsel, hdml, Run.bind, hk, hq, backendsOf_append, hes, backendsOf,
        Database.inFlight]
    | ok res =>
      simp [Database.QueryRow, hsel, hdml, Run.bind, hk, hq, backendsOf_append, hes, backendsOf,
        Database.inFlight]
  | some ko =>
    cases hg : ko.g.get (ToKey env stmt values) with
    | none =>
      have hin : d.inFlight env stmt values = false := by simp [Database.inFlight, hk, hg]
      simp only [Database.QueryRow, hsel, hdml, Run.bind, hk, Option.isSome_some, if_true,
        Bool.false_eq_true, if_false, DoChan_fresh _ _ _ _ hg, hin]
      repeat' split
      all_goals simp [backendsOf_append, hes, backendsOf, rowProducer_effects]
    | some c =>
      have hin : d.inFlight env stmt values = true := by simp [Database.inFlight, hk, hg]
      simp only [Database.QueryRow, hsel, hdml, Run.bind, hk, Option.isSome_some, if_true,
        Bool.false_eq_true, if_false, DoChan_in_flight _ _ _ _ c hg, hin]
      repeat' split
      all_goals simp [backendsOf_append, hes, backendsOf]

theorem Exec_read_only (env : Env) (d : Database) (stmt : GoString) (values : List Value)
    (db : ResolverDB) (es : List Effect) (hsel : d.selectSource env = Run.ret (db, es))
    (hes : backendsOf es = []) (hdml : isDML (strings.ToLower stmt) = Run.ret false) :
    ∃ r, d.Exec env stmt values = Run.ret r ∧ r.1 = env.Exec db none stmt values ∧
      r.2.1 = d ∧ backendsOf r.2.2 = [db] := by
  simp [Database.Exec, hsel, hdml, Run.bind, backendsOf_append, hes, backendsOf]

/-- C4: for a statement that `isDML` classifies as read-only, `Query`,
`QueryRow` and `Exec` return, and the only backend they send the statement to
is the master in Write mode, the replica at the index the policy draws in Read
mode when that index lies within the replica list, and the master in Read mode
when the replica list is empty.  `Exec` sends it there exactly once; `Query`
and `QueryRow` send it there exactly once unless a call is in flight under
the statement key, in which case they send nothing. -/
theorem read_only_routing (env : Env) (d : Database) (stmt : GoString) (values : List Value)
    (db : ResolverDB) (hroute : routedTo env d db)
    (hdml : isDML (strings.ToLower stmt) = Run.ret false) :
    (∃ r, d.Query env stmt values = Run.ret r ∧
        backendsOf r.2.2 = if d.inFlight env stmt values then [] else [db]) ∧
      (∃ r, d.QueryRow env stmt values = Run.ret r ∧
        backendsOf r.2.2 = if d.inFlight env stmt values then [] else [db]) ∧
      (∃ r, d.Exec env stmt values = Run.ret r ∧ r.1 = env.Exec db none stmt values ∧
        r.2.1 = d ∧ backendsOf r.2.2 = [db]) := by
  obtain ⟨es, hsel, hes⟩ := selectSource_of_routedTo env d db hroute
  exact ⟨Query_read_only env d stmt values db es hsel hes hdml,
    QueryRow_read_only env d stmt values db es hsel hes hdml,
    Exec_read_only env d stmt values db es hsel hes hdml⟩

theorem read_only_routing_witness :
    routedTo sampleEnv sampleDB sampleReplica ∧
      isDML (strings.ToLower sampleSelect) = Run.ret false ∧
      (∃ r, sampleDB.Query sampleEnv sampleSelect [] = Run.ret r ∧
        backendsOf r.2.2 =
          if sampleDB.inFlight sampleEnv sampleSelect [] then [] else [sampleReplica]) :=
  ⟨Or.inr (Or.inl ⟨rfl, _, rfl, by decide, by decide, rfl⟩), by decide,
    (read_only_routing sampleEnv sampleDB sampleSelect [] sampleReplica
      (Or.inr (Or.inl ⟨rfl, _, rfl, by decide, by decide, rfl⟩)) (by decide)).1⟩

/-! ## Lemmas on the koalescer and on row marshalling -/

theorem Forget_get_self (g : Group) (key : GoString) : (g.Forget key).get key = none := by
  induction g with
  | nil => rfl
  | cons p g ih =>
    obtain ⟨a, c⟩ := p
    simp only [Group.Forget, Group.get] at ih ⊢
    by_cases h : a = key
    · simp [List.filter_cons, h, ih]
    · have h2 : (key == a) = false := by
        simp only [beq_eq_false_iff_ne, ne_eq]
        exact fun hc => h hc.symm
      simp only [List.filter_cons, bne_iff_ne, ne_eq, h, not_false_eq_true, decide_True,
        if_true, List.lookup_cons, h2]
      exact ih

theorem Forget_get_other (g : Group) (key k : GoString) (hk : k ≠ key) :
    (g.Forget key).get k = g.get k := by
  induction g with
  | nil => rfl
  | cons p g ih =>
    obtain ⟨a, c⟩ := p
    simp only [Group.Forget, Group.get] at ih ⊢
    by_cases h : a = key
    · subst h
      have h2 : (k == a) = false := by
        simp only [beq_eq_false_iff_ne, ne_eq]
        exact hk
      simp only [List.filter_cons, bne_iff_ne, ne_eq, not_true_eq_false, decide_False,
        Bool.false_eq_true, if_false, List.lookup_cons, h2]
      exact ih
    · simp only [List.filter_cons, bne_iff_ne, ne_eq, h, not_false_eq_true, decide_True,
        if_true, List.lookup_cons]
      cases hkp : k == a
      · exact ih
      · rfl

theorem ToRows_loop_err (err : Option GoError) (scans : List (Except GoError Row)) (acc : Rows)
    (e : GoError) (h : (ToRows.loop err scans acc).2 = some e) :
    (ToRows.loop err scans acc).1 = [] := by
  induction scans generalizing acc with
  | nil =>
    cases err with
    | none => simp [ToRows.loop] at h
    | some e2 => simp [ToRows.loop]
  | cons x scans ih =>
    cases x with
    | error e2 => simp [ToRows.loop]
    | ok values =>
      simp only [ToRows.loop] at h ⊢
      exact ih _ h

theorem ToRows_err (res : SqlRows) (e : GoError) (h : (ToRows res).2 = some e) :
    (ToRows res).1 = [] := by
  unfold ToRows at h ⊢
  split
  · rfl
  · rename_i n hc
    rw [hc] at h
    exact ToRows_loop_err _ _ _ e h

theorem ToRow_err (res : SqlRows) (e : GoError) (h : (ToRow res).2 = some e) :
    (ToRow res).1 = none := by
  unfold ToRow at h ⊢
  repeat' split
  all_goals first | rfl | simp_all

theorem getMaster_backends (d : Database) (r : ResolverDB × List Effect)
    (h : d.getMaster = Run.ret r) : backendsOf r.2 = [] := by
  unfold Database.getMaster at h
  cases hm : d.Config.Master with
  | none => simp [hm] at h
  | some master =>
    simp only [hm, Run.ret.injEq] at h
    subst h
    rfl

theorem getReplica_backends (env : Env) (d : Database) (r : ResolverDB × List Effect)
    (h : d.getReplica env = Run.ret r) : backendsOf r.2 = [] := by
  unfold Database.getReplica at h
  cases hp : d.Config.Policy with
  | none => simp [hp] at h
  | some policy =>
    simp only [hp] at h
    split at h
    · split at h
      · simp at h
      · split at h
        · simp at h
        · simp only [Run.ret.injEq] at h
          subst h
          rfl
    · split at h
      · simp at h
      · simp only [Run.ret.injEq] at h
        subst h
        rfl

theorem selectSource_backends (env : Env) (d : Database) (r : ResolverDB × List Effect)
    (h : d.selectSource env = Run.ret r) : backendsOf r.2 = [] := by
  unfold Database.selectSource at h
  cases hm : d.Config.DefaultMode with
  | none => simp [hm] at h
  | some mode =>
    simp only [hm] at h
    split at h
    · cases hg : d.getMaster with
      | ret x =>
        simp only [hg, Run.bind, Run.ret.injEq] at h
        subst h
        simpa [backendsOf] using getMaster_backends d x hg
      | panic => simp [hg, Run.bind] at h
      | blocked => simp [hg, Run.bind] at h
    · cases hg : d.getReplica env with
      | ret x =>
        simp only [hg, Run.bind, Run.ret.injEq] at h
        subst h
        simpa [backendsOf] using getReplica_backends env d x hg
      | panic => simp [hg, Run.bind] at h
      | blocked => simp [hg, Run.bind] at h

/-! ## Data-modifying statements through the query methods -/

theorem DoChan_after_Forget (ko : QueryKoalescer) (clock : Int) (key : GoString)
    (fn : Producer) :
    (ko.Forget key).2.DoChan clock key fn =
      ({ Val := (fn ()).1.1, Err := (fn ()).1.2, Shared := false },
        ko.afterRun clock key, (fn ()).2) := by
  have h : (ko.Forget key).2.g.get key = none := Forget_get_self ko.g key
  rw [DoChan_fresh _ _ _ _ h]
  simp [QueryKoalescer.Forget, QueryKoalescer.Evict, HasEvicted_fst, QueryKoalescer.afterRun]

theorem getMaster_eq (d : Database) (master : ResolverDB) (h : d.Config.Master = some master) :
    d.getMaster = Run.ret (master, [Effect.emit d.Hooks EventAfterDBSelect
      [Payload.text (str "master"), Payload.text master.Name, Payload.int 0]]) := by
  simp [Database.getMaster, h]

theorem ForgetWithContext_live (ko : QueryKoalescer) (ctx : Context) (key : GoString)
    (h : ctx.done = false) : ko.ForgetWithContext ctx key = ko.Forget key := by
  simp [QueryKoalescer.ForgetWithContext, h, timeAfterReady, QueryKoalescer.Forget]

theorem DoWithContext_live (ko : QueryKoalescer) (clock : Int) (ctx : Context) (key : GoString)
    (fn : Producer) (h : ctx.done = false) :
    ko.DoWithContext clock ctx key fn = Run.ret (ko.DoChan clock key fn) := by
  simp [QueryKoalescer.DoWithContext, h]

theorem Query_dml (env : Env) (d : Database) (stmt : GoString)
    (values : List Value) (master : ResolverDB) (sel : ResolverDB × List Effect)
    (hsel : d.selectSource env = Run.ret sel)
    (hdml : isDML (strings.ToLower stmt) = Run.ret true)
    (hmaster : d.Config.Master = some master) :
    ∃ r, d.Query env stmt values = Run.ret r ∧
      r.1 = rowsOutcome (env.Query master none stmt values) ∧
      backendsOf r.2.2 = [master] ∧
      r.2.1 = { d with koalescer :=
        d.koalescer.map fun ko => ko.afterRun env.Now (ToKey env stmt values) } := by
  have hes := selectSource_backends env d sel hsel
  have hgm := getMaster_eq d master hmaster
  cases hk : d.koalescer with
  | none =>
    have hd : d = { Config := d.Config, Hooks := d.Hooks, koalescer := none } := by
      cases d
      simp_all
    cases hq : env.Query master none stmt values with
    | error err =>
      simp [Database.Query, hsel, hdml, Run.bind, hk, hq, hgm, backendsOf_append, hes,
        backendsOf, rowsOutcome]
      exact hd
    | ok res =>
      simp [Database.Query, hsel, hdml, Run.bind, hk, hq, hgm, backendsOf_append, hes,
        backendsOf, rowsOutcome]
      exact hd
  | some ko =>
    simp only [Database.Query, hsel, hdml, Run.bind, hk, hgm, Option.isSome_some, if_true,
      Option.map_some', DoChan_after_Forget]
    cases hq : env.Query master none stmt values with
    | error err =>
      simp [rowsProducer, hq, backendsOf_append, hes, backendsOf, rowsOutcome]
    | ok res =>
      cases hE : (ToRows res).2 with
      | none =>
        simp [rowsProducer, hq, hE, backendsOf_append, hes, backendsOf, rowsOutcome]
        exact Prod.ext rfl hE.symm
      | some e =>
        have h1 := ToRows_err res e hE
        simp [rowsProducer, hq, hE, backendsOf_append, hes, backendsOf, rowsOutcome]
        exact Prod.ext h1.symm hE.symm

theorem QueryRow_dml (env : Env) (d : Database) (stmt : GoString)
    (values : List Value) (master : ResolverDB) (sel : ResolverDB × List Effect)
    (hsel : d.selectSource env = Run.ret sel)
    (hdml : isDML (strings.ToLower stmt) = Run.ret true)
    (hmaster : d.Config.Master = some master) :
    ∃ r, d.QueryRow env stmt values = Run.ret r ∧
      r.1 = rowOutcome (env.Query master none stmt values) ∧
      backendsOf r.2.2 = [master] ∧
      r.2.1 = { d with koalescer :=
        d.koalescer.map fun ko => ko.afterRun env.Now (ToKey env stmt values) } := by
  have hes := selectSource_backends env d sel hsel
  have hgm := getMaster_eq d master hmaster
  cases hk : d.koalescer with
  | none =>
    have hd : d = { Config := d.Config, Hooks := d.Hooks, koalescer := none } := by
      cases d
      simp_all
    cases hq : env.Query master none stmt values with
    | error err =>
      simp [Database.QueryRow, hsel, hdml, Run.bind, hk, hq, hgm, backendsOf_append, hes,
        backendsOf, rowOutcome]
      exact hd
    | ok res =>
      simp [Database.QueryRow, hsel, hdml, Run.bind, hk, hq, hgm, backendsOf_append, hes,
        backendsOf, rowOutcome]
      exact hd
  | some ko =>
    simp only [Database.QueryRow, hsel, hdml, Run.bind, hk, hgm, Option.isSome_some, if_true,
      Option.map_some', DoChan_after_Forget]
    cases hq : env.Query master none stmt values with
    | error err =>
      simp [rowProducer, hq, backendsOf_append, hes, backendsOf, rowOutcome]
    | ok res =>
      cases hE : (ToRow res).2 with
      | none =>
        simp [rowProducer, hq, hE, backendsOf_append, hes, backendsOf, rowOutcome]
        exact Prod.ext rfl hE.symm
      | some e =>
        have h1 := ToRow_err res e hE
        simp [rowProducer, hq, hE, backendsOf_append, hes, backendsOf, rowOutcome]
        exact Prod.ext h1.symm hE.symm

theorem QueryContext_dml (env : Env) (d : Database) (ctx : Context) (stmt : GoString)
    (values : List Value) (master : ResolverDB) (sel : ResolverDB × List Effect)
    (hsel : d.selectSource env = Run.ret sel)
    (hdml : isDML (strings.ToLower stmt) = Run.ret true)
    (hmaster : d.Config.Master = some master)
    (hctx : d.koalescer = none ∨ ctx.done = false) :
    ∃ r, d.QueryContext env ctx stmt values = Run.ret r ∧
      r.1 = rowsOutcome (env.Query master (some ctx) stmt values) ∧
      backendsOf r.2.2 = [master] ∧
      r.2.1 = { d with koalescer :=
        d.koalescer.map fun ko => ko.afterRun env.Now (ToKey env stmt values) } := by
  have hes := selectSource_backends env d sel hsel
  have hgm := getMaster_eq d master hmaster
  cases hk : d.koalescer with
  | none =>
    have hd : d = { Config := d.Config, Hooks := d.Hooks, koalescer := none } := by
      cases d
      simp_all
    cases hq : env.Query master (some ctx) stmt values with
    | error err =>
      simp [Database.QueryContext, hsel, hdml, Run.bind, hk, hq, hgm, backendsOf_append, hes,
        backendsOf, rowsOutcome]
      exact hd
    | ok res =>
      simp [Database.QueryContext, hsel, hdml, Run.bind, hk, hq, hgm, backendsOf_append, hes,
        backendsOf, rowsOutcome]
      exact hd
  | some ko =>
    have hdone : ctx.done = false := by
      rcases hctx with h | h
      · simp [hk] at h
      · exact h
    simp only [Database.QueryContext, hsel, hdml, Run.bind, hk, hgm, Option.isSome_some, if_true,
      Option.map_some', ForgetWithContext_live _ _ _ hdone, DoWithContext_live _ _ _ _ _ hdone, DoChan_after_Forget]
    cases hq : env.Query master (some ctx) stmt values with
    | error err =>
      simp [rowsProducer, hq, backendsOf_append, hes, backendsOf, rowsOutcome]
    | ok res =>
      cases hE : (ToRows res).2 with
      | none =>
        simp [rowsProducer, hq, hE, backendsOf_append, hes, backendsOf, rowsOutcome]
        exact Prod.ext rfl hE.symm
      | some e =>
        have h1 := ToRows_err res e hE
        simp [rowsProducer, hq, hE, backendsOf_append, hes, backendsOf, rowsOutcome]
        exact Prod.ext h1.symm hE.symm

theorem QueryRowContext_dml (env : Env) (d : Database) (ctx : Context) (stmt : GoString)
    (values : List Value) (master : ResolverDB) (sel : ResolverDB × List Effect)
    (hsel : d.selectSource env = Run.ret sel)
    (hdml : isDML (strings.ToLower stmt) = Run.ret true)
    (hmaster : d.Config.Master = some master)
    (hctx : d.koalescer = none ∨ ctx.done = false) :
    ∃ r, d.QueryRowContext env ctx stmt values = Run.ret r ∧
      r.1 = rowOutcome (env.Query master (some ctx) stmt values) ∧
      backendsOf r.2.2 = [master] ∧
      r.2.1 = { d with koalescer :=
        d.koalescer.map fun ko => ko.afterRun env.Now (ToKey env stmt values) } := by
  have hes := selectSource_backends env d sel hsel
  have hgm := getMaster_eq d master hmaster
  cases hk : d.koalescer with
  | none =>
    have hd : d = { Config := d.Config, Hooks := d.Hooks, koalescer := none } := by
      cases d
      simp_all
    cases hq : env.Query master (some ctx) stmt values with
    | error err =>
      simp [Database.QueryRowContext, hsel, hdml, Run.bind, hk, hq, hgm, backendsOf_append, hes,
        backendsOf, rowOutcome]
      exact hd
    | ok res =>
      simp [Database.QueryRowContext, hsel, hdml, Run.bind, hk, hq, hgm, backendsOf_append, hes,
        backendsOf, rowOutcome]
      exact hd
  | some ko =>
    have hdone : ctx.done = false := by
      rcases hctx with h | h
      · simp [hk] at h
      · exact h
    simp only [Database.QueryRowContext, hsel, hdml, Run.bind, hk, hgm, Option.isSome_some, if_true,
      Option.map_some', ForgetWithContext_live _ _ _ hdone, DoWithContext_live _ _ _ _ _ hdone, DoChan_after_Forget]
    cases hq : env.Query master (some ctx) stmt values with
    | error err =>
      simp [rowProducer, hq, backendsOf_append, hes, backendsOf, rowOutcome]
    | ok res =>
      cases hE : (ToRow res).2 with
      | none =>
        simp [rowProducer, hq, hE, backendsOf_append, hes, backendsOf, rowOutcome]
        exact Prod.ext rfl hE.symm
      | some e =>
        have h1 := ToRow_err res e hE
        simp [rowProducer, hq, hE, backendsOf_append, hes, backendsOf, rowOutcome]
        exact Prod.ext h1.symm hE.symm

/-- C5 (as stated, refuted): in Read mode `Query` of a `SELECT ... FOR UPDATE`
does not fail with `ErrorInvalidDBMode`; it runs the statement on the master
and returns its rows. -/
theorem Query_lock_clause_in_read_mode :
    sampleDB.Config.DefaultMode = some DbReadMode ∧
      isDML (strings.ToLower sampleLock) = Run.ret true ∧
      ∃ r, sampleDB.Query sampleEnv sampleLock [] = Run.ret r ∧
        r.1 = ([[Value.int 7]], none) ∧ backendsOf r.2.2 = [sampleMaster] :=
  ⟨rfl, by decide, _, rfl, rfl, rfl⟩

/-- C5 (amended): in Read mode, when the selection of a source returns, the
query methods do not check the mode for a statement that `isDML` classifies as
data-modifying: `Query`, `QueryRow` and, when no koalescer is configured or
the context is not done, `QueryContext` and `QueryRowContext` send the
statement to the master, once, to no replica, and return what that execution
yields. -/
theorem Query_dml_in_read_mode (env : Env) (d : Database) (ctx : Context) (stmt : GoString)
    (values : List Value) (master : ResolverDB) (sel : ResolverDB × List Effect)
    (_hmode : d.Config.DefaultMode = some DbReadMode)
    (hsel : d.selectSource env = Run.ret sel)
    (hdml : isDML (strings.ToLower stmt) = Run.ret true)
    (hmaster : d.Config.Master = some master)
    (hctx : d.koalescer = none ∨ ctx.done = false) :
    (∃ r, d.Query env stmt values = Run.ret r ∧
        r.1 = rowsOutcome (env.Query master none stmt values) ∧
        backendsOf r.2.2 = [master]) ∧
      (∃ r, d.QueryRow env stmt values = Run.ret r ∧
        r.1 = rowOutcome (env.Query master none stmt values) ∧
        backendsOf r.2.2 = [master]) ∧
      (∃ r, d.QueryContext env ctx stmt values = Run.ret r ∧
        r.1 = rowsOutcome (env.Query master (some ctx) stmt values) ∧
        backendsOf r.2.2 = [master]) ∧
      (∃ r, d.QueryRowContext env ctx stmt values = Run.ret r ∧
        r.1 = rowOutcome (env.Query master (some ctx) stmt values) ∧
        backendsOf r.2.2 = [master]) := by
  obtain ⟨r1, h1, h1a, h1b, _⟩ := Query_dml env d stmt values master sel hsel hdml hmaster
  obtain ⟨r2, h2, h2a, h2b, _⟩ := QueryRow_dml env d stmt values master sel hsel hdml hmaster
  obtain ⟨r3, h3, h3a, h3b, _⟩ :=
    QueryContext_dml env d ctx stmt values master sel hsel hdml hmaster hctx
  obtain ⟨r4, h4, h4a, h4b, _⟩ :=
    QueryRowContext_dml env d ctx stmt values master sel hsel hdml hmaster hctx
  exact ⟨⟨r1, h1, h1a, h1b⟩, ⟨r2, h2, h2a, h2b⟩, ⟨r3, h3, h3a, h3b⟩, ⟨r4, h4, h4a, h4b⟩⟩

theorem Query_dml_in_read_mode_witness :
    sampleDBKo.Config.DefaultMode = some DbReadMode ∧
      isDML (strings.ToLower sampleLock) = Run.ret true ∧
      ∃ r, sampleDBKo.QueryContext sampleEnv { done := false } sampleLock [] = Run.ret r ∧
        r.1 = rowsOutcome (sampleEnv.Query sampleMaster (some { done := false }) sampleLock []) ∧
        backendsOf r.2.2 = [sampleMaster] :=
  ⟨rfl, by decide,
    (Query_dml_in_read_mode sampleEnv sampleDBKo { done := false } sampleLock [] sampleMaster
      (sampleReplica,
        [Effect.emit sampleDBKo.Hooks EventBeforeDBSelect [Payload.text DbReadMode],
          Effect.policyGet (Balancer.RoundRobalancer 1),
          Effect.emit sampleDBKo.Hooks EventAfterDBSelect
            [Payload.text (str "replica"), Payload.text sampleReplica.Name, Payload.int 0]])
      rfl rfl (by decide) rfl (Or.inr rfl)).2.2.1⟩

/-! ## Mode scoping -/

/-- C6 (defect): on a router with a koalescer, `WithMode` returns a router
with the requested mode and the master, replicas, policy and hooks of the
receiver, but with no koalescer. -/
theorem WithMode_drops_koalescer :
    sampleDBKo.koalescer = some sampleKoalescer ∧
      (sampleDBKo.WithMode DbWriteMode).1.koalescer = none ∧
      (sampleDBKo.WithMode DbWriteMode).1.Config.DefaultMode = some DbWriteMode ∧
      (sampleDBKo.WithMode DbWriteMode).1.Config.Master = sampleDBKo.Config.Master ∧
      (sampleDBKo.WithMode DbWriteMode).1.Config.Replicas = sampleDBKo.Config.Replicas ∧
      (sampleDBKo.WithMode DbWriteMode).1.Config.Policy = sampleDBKo.Config.Policy ∧
      (sampleDBKo.WithMode DbWriteMode).1.Hooks = sampleDBKo.Hooks := by
  decide

theorem WithMode_fields (d : Database) (mode : DbActionMode) :
    (d.WithMode mode).2 = d ∧
      (d.WithMode mode).1.Config.DefaultMode = some mode ∧
      (d.WithMode mode).1.Config.Master = d.Config.Master ∧
      (d.WithMode mode).1.Config.Replicas = d.Config.Replicas ∧
      (d.WithMode mode).1.Config.Policy = d.Config.Policy ∧
      (d.WithMode mode).1.Hooks = d.Hooks ∧
      (d.WithMode mode).1.koalescer = none :=
  ⟨rfl, rfl, rfl, rfl, rfl, rfl, rfl⟩

theorem Exec_dml_write (env : Env) (d : Database) (stmt : GoString) (values : List Value)
    (master : ResolverDB) (hmode : d.Config.DefaultMode = some DbWriteMode)
    (hdml : isDML (strings.ToLower stmt) = Run.ret true)
    (hmaster : d.Config.Master = some master) :
    ∃ r, d.Exec env stmt values = Run.ret r ∧ r.1 = env.Exec master none stmt values ∧
      backendsOf r.2.2 = [master] ∧
      r.2.1 = { d with koalescer :=
        d.koalescer.map fun ko => { ko with g := ko.g.Forget (ToKey env stmt values) } } := by
  have hgm := getMaster_eq d master hmaster
  cases hk : d.koalescer with
  | none =>
    have hd : d = { Config := d.Config, Hooks := d.Hooks, koalescer := none } := by
      cases d
      simp_all
    simp [Database.Exec, hdml, Run.bind, Database.isWriteMode, hmode, hgm, hk, backendsOf]
    exact hd
  | some ko =>
    simp [Database.Exec, hdml, Run.bind, Database.isWriteMode, hmode, hgm, hk, backendsOf,
      QueryKoalescer.Forget]

theorem Query_read_only_fresh (env : Env) (d : Database) (stmt : GoString)
    (values : List Value) (db : ResolverDB) (es : List Effect)
    (hsel : d.selectSource env = Run.ret (db, es)) (hes : backendsOf es = [])
    (hdml : isDML (strings.ToLower stmt) = Run.ret false)
    (hin : d.inFlight env stmt values = false) :
    ∃ r, d.Query env stmt values = Run.ret r ∧
      r.1 = rowsOutcome (env.Query db none stmt values) ∧ backendsOf r.2.2 = [db] := by
  cases hk : d.koalescer with
  | none =>
    cases hq : env.Query db none stmt values with
    | error err =>
      simp [Database.Query, hsel, hdml, Run.bind, hk, hq, backendsOf_append, hes, backendsOf,
        rowsOutcome]
    | ok res =>
      simp [Database.Query, hsel, hdml, Run.bind, hk, hq, backendsOf_append, hes, backendsOf,
        rowsOutcome]
  | some ko =>
    have hg : ko.g.get (ToKey env stmt values) = none := by
      simpa [Database.inFlight, hk] using hin
    simp only [Database.Query, hsel, hdml, Run.bind, hk, Option.isSome_some, if_true,
      Bool.false_eq_true, if_false, DoChan_fresh _ _ _ _ hg]
    cases hq : env.Query db none stmt values with
    | error err =>
      simp [rowsProducer, hq, backendsOf_append, hes, backendsOf, rowsOutcome]
    | ok res =>
      cases hE : (ToRows res).2 with
      | none =>
        simp [rowsProducer, hq, hE, backendsOf_append, hes, backendsOf, rowsOutcome]
        exact Prod.ext rfl hE.symm
      | some e =>
        have h1 := ToRows_err res e hE
        simp [rowsProducer, hq, hE, backendsOf_append, hes, backendsOf, rowsOutcome]
        exact Prod.ext h1.symm hE.symm

/-- C7: `WithMode` leaves its receiver as it was.  For a router in Read mode
whose policy draws the index of one of its replicas: after
`WithMode(DbWriteMode)`, a read-only `Query` on the receiver is still sent to
that replica (to nothing when a call is in flight under its key) and an
`Exec` of a data-modifying statement on the receiver still returns
`ErrorInvalidDBMode` without effect on a backend, while the same `Exec` on the
router returned is sent to the master and returns what the master answers. -/
theorem WithMode_leaves_receiver (env : Env) (d : Database) (stmtR stmtW : GoString)
    (values : List Value) (master replica : ResolverDB) (policy : Balancer)
    (hmode : d.Config.DefaultMode = some DbReadMode)
    (hmaster : d.Config.Master = some master)
    (hp : d.Config.Policy = some policy)
    (h0 : 0 ≤ env.PolicyGet policy)
    (hlt : env.PolicyGet policy < (d.Config.Replicas.length : Int))
    (hget : d.Config.Replicas.get? (env.PolicyGet policy).toNat = some replica)
    (hR : isDML (strings.ToLower stmtR) = Run.ret false)
    (hW : isDML (strings.ToLower stmtW) = Run.ret true) :
    (∀ mode, (d.WithMode mode).2 = d) ∧
      (∃ r, (d.WithMode DbWriteMode).2.Query env stmtR values = Run.ret r ∧
        backendsOf r.2.2 =
          if (d.WithMode DbWriteMode).2.inFlight env stmtR values then [] else [replica]) ∧
      (d.WithMode DbWriteMode).2.Exec env stmtW values =
        Run.ret ((none, some GoError.ErrorInvalidDBMode), d,
          [Effect.emit d.Hooks EventBeforeQueryRun
            [Payload.text stmtW, Payload.values values]]) ∧
      (∃ r, (d.WithMode DbWriteMode).1.Exec env stmtW values = Run.ret r ∧
        r.1 = env.Exec master none stmtW values ∧ backendsOf r.2.2 = [master]) := by
  refine ⟨fun _ => rfl, ?_, ?_, ?_⟩
  · exact Query_read_only env d stmtR values replica _
      (selectSource_replica env d policy replica hmode hp h0 hlt hget) rfl hR
  · show d.Exec env stmtW values = _
    simp [Database.Exec, hW, Run.bind, Database.isWriteMode, hmode, DbWriteMode_ne_DbReadMode]
  · obtain ⟨r, h1, h2, h3, _⟩ :=
      Exec_dml_write env (d.WithMode DbWriteMode).1 stmtW values master rfl hW hmaster
    exact ⟨r, h1, h2, h3⟩

theorem WithMode_leaves_receiver_witness :
    sampleDB.Config.DefaultMode = some DbReadMode ∧
      isDML (strings.ToLower sampleSelect) = Run.ret false ∧
      isDML (strings.ToLower sampleInsert) = Run.ret true ∧
      (sampleDB.WithMode DbWriteMode).2.Exec sampleEnv sampleInsert [] =
        Run.ret ((none, some GoError.ErrorInvalidDBMode), sampleDB,
          [Effect.emit sampleDB.Hooks EventBeforeQueryRun
            [Payload.text sampleInsert, Payload.values []]]) :=
  ⟨rfl, by decide, by decide,
    (WithMode_leaves_receiver sampleEnv sampleDB sampleSelect sampleInsert [] sampleMaster
      sampleReplica (Balancer.RoundRobalancer 1) rfl rfl rfl (by decide) (by decide) rfl
      (by decide) (by decide)).2.2.1⟩

/-! ## Invalidation after a write -/

/-- C8: in Write mode with a koalescer, `Exec` of a statement that `isDML`
classifies as data-modifying returns what the master answers and sends the
statement to the master only; in the router after the call the koalescer holds
no group under `ToKey(stmt, values)`, every other key maps to what it mapped
to before, and the configuration is unchanged.  A `Query` that follows under
that key therefore runs its producer: it sends its statement to the master
once and returns what that execution yields. -/
theorem Exec_write_forgets_key (env : Env) (d : Database) (stmt : GoString)
    (values : List Value) (master : ResolverDB) (ko : QueryKoalescer)
    (hmode : d.Config.DefaultMode = some DbWriteMode)
    (hko : d.koalescer = some ko)
    (hdml : isDML (strings.ToLower stmt) = Run.ret true)
    (hmaster : d.Config.Master = some master) :
    ∃ r, d.Exec env stmt values = Run.ret r ∧ r.1 = env.Exec master none stmt values ∧
      backendsOf r.2.2 = [master] ∧ r.2.1.Config = d.Config ∧
      (∃ after, r.2.1.koalescer = some after ∧ after.evictior = ko.evictior ∧
        after.g.get (ToKey env stmt values) = none ∧
        ∀ k, k ≠ ToKey env stmt values → after.g.get k = ko.g.get k) ∧
      ∀ (env2 : Env) (stmt2 : GoString) (values2 : List Value) (b : Bool),
        ToKey env2 stmt2 values2 = ToKey env stmt values →
        isDML (strings.ToLower stmt2) = Run.ret b →
        ∃ q, r.2.1.Query env2 stmt2 values2 = Run.ret q ∧
          q.1 = rowsOutcome (env2.Query master none stmt2 values2) ∧
          backendsOf q.2.2 = [master] := by
  obtain ⟨r, h1, h2, h3, h4⟩ := Exec_dml_write env d stmt values master hmode hdml hmaster
  have hcfg : r.2.1.Config = d.Config := by rw [h4]
  have hk : r.2.1.koalescer =
      some { g := ko.g.Forget (ToKey env stmt values), evictior := ko.evictior } := by
    rw [h4, hko]
    rfl
  refine ⟨r, h1, h2, h3, hcfg, ⟨_, hk, rfl, Forget_get_self _ _, ?_⟩, ?_⟩
  · intro k hne
    exact Forget_get_other _ _ _ hne
  · intro env2 stmt2 values2 b hkey hb
    have hmode2 : r.2.1.Config.DefaultMode = some DbWriteMode := by rw [hcfg, hmode]
    have hmaster2 : r.2.1.Config.Master = some master := by rw [hcfg, hmaster]
    have hsel := selectSource_write env2 r.2.1 master hmode2 hmaster2
    cases b with
    | true =>
      obtain ⟨q, hq1, hq2, hq3, _⟩ :=
        Query_dml env2 r.2.1 stmt2 values2 master _ hsel hb hmaster2
      exact ⟨q, hq1, hq2, hq3⟩
    | false =>
      have hin : r.2.1.inFlight env2 stmt2 values2 = false := by
        simp only [Database.inFlight, hk, hkey]
        rw [Forget_get_self]
        rfl
      exact Query_read_only_fresh env2 r.2.1 stmt2 values2 master _ hsel rfl hb hin

theorem Exec_write_forgets_key_witness :
    sampleWriteDBKo.Config.DefaultMode = some DbWriteMode ∧
      isDML (strings.ToLower sampleInsert) = Run.ret true ∧
      sampleKoalescer.g.get (ToKey sampleEnv sampleInsert []) =
        some { val := Dyn.rows [], err := none } ∧
      ∃ r, sampleWriteDBKo.Exec sampleEnv sampleInsert [] = Run.ret r ∧
        r.1 = sampleEnv.Exec sampleMaster none sampleInsert [] ∧
        backendsOf r.2.2 = [sampleMaster] ∧ r.2.1.Config = sampleWriteDBKo.Config ∧
        (∃ after, r.2.1.koalescer = some after ∧ after.evictior = sampleKoalescer.evictior ∧
          after.g.get (ToKey sampleEnv sampleInsert []) = none ∧
          ∀ k, k ≠ ToKey sampleEnv sampleInsert [] → after.g.get k = sampleKoalescer.g.get k) ∧
        ∀ (env2 : Env) (stmt2 : GoString) (values2 : List Value) (b : Bool),
          ToKey env2 stmt2 values2 = ToKey sampleEnv sampleInsert [] →
          isDML (strings.ToLower stmt2) = Run.ret b →
          ∃ q, r.2.1.Query env2 stmt2 values2 = Run.ret q ∧
            q.1 = rowsOutcome (env2.Query sampleMaster none stmt2 values2) ∧
            backendsOf q.2.2 = [sampleMaster] :=
  ⟨rfl, by decide, by decide,
    Exec_write_forgets_key sampleEnv sampleWriteDBKo sampleInsert [] sampleMaster
      sampleKoalescer rfl rfl (by decide) rfl⟩

/-! ## Eviction and context-aware invalidation -/

/-- C9 (defect): polled at 2000 ns, past the boundary 0 + 1000 ns, the time
evictor advances its window to 1000 ns but answers false; `Evict` then
returns false and leaves the group of the key in place. -/
theorem TimeEvictor_never_reports :
    (KoalesceEvictor.TimeEvictor 1000 0).HasEvicted 2000 =
        (false, KoalesceEvictor.TimeEvictor 1000 1000) ∧
      (sampleTimedKoalescer.Evict 2000 (str "k")).1 = false ∧
      (sampleTimedKoalescer.Evict 2000 (str "k")).2.g.get (str "k") =
        some { val := Dyn.other 1, err := none } := by
  decide

/-- C10: `ForgetWithContext` returns `ErrKoalesceCancelled` and leaves the
koalescer as it was when the context is done; otherwise it returns nil and
removes the group under the key, leaving every other key as it was.  It never
returns `ErrKoalesceTimeout`. -/
theorem ForgetWithContext_outcome (ko : QueryKoalescer) (ctx : Context) (key : GoString) :
    ko.ForgetWithContext ctx key =
        (if ctx.done then (some GoError.ErrKoalesceCancelled, ko)
          else (none, { g := ko.g.Forget key, evictior := ko.evictior })) ∧
      (ko.g.Forget key).get key = none ∧
      (∀ k, k ≠ key → (ko.g.Forget key).get k = ko.g.get k) ∧
      (ko.ForgetWithContext ctx key).1 ≠ some GoError.ErrKoalesceTimeout := by
  refine ⟨?_, Forget_get_self _ _, fun k hk => Forget_get_other _ _ _ hk, ?_⟩
  · cases h : ctx.done <;> simp [QueryKoalescer.ForgetWithContext, h, timeAfterReady]
  · cases h : ctx.done <;> simp [QueryKoalescer.ForgetWithContext, h, timeAfterReady]

theorem ForgetWithContext_outcome_witness :
    sampleKoalescer.ForgetWithContext { done := true } (str "other") =
        (some GoError.ErrKoalesceCancelled, sampleKoalescer) ∧
      (sampleKoalescer.ForgetWithContext { done := false } (str "other")).2.g.get (str "other") =
        none :=
  ⟨(ForgetWithContext_outcome sampleKoalescer { done := true } (str "other")).1,
    by
      rw [(ForgetWithContext_outcome sampleKoalescer { done := false } (str "other")).1]
      decide⟩

/-! ## Health check -/

theorem foldl_replica_error (errs : List (Option GoError)) (init : Option GoError)
    (h : errs ≠ []) :
    errs.foldl
        (fun _ replicaErr =>
          some (GoError.other (str "replica error: " ++ formatError replicaErr ++ str "\n")))
        init ≠ none := by
  induction errs generalizing init with
  | nil => exact absurd rfl h
  | cons e errs ih =>
    cases errs with
    | nil => simp
    | cons e2 errs =>
      rw [List.foldl_cons]
      exact ih _ (by simp)

/-- The health check returns nil exactly when the ping of the master succeeds
and there is no replica. -/
theorem CheckHealth_nil_iff (cfg : DBConfig) (ping : Nat → Context → Option GoError)
    (ctx : Context) (master : ResolverDB) (hmaster : cfg.Master = some master) :
    (∃ after, cfg.CheckHealth ping ctx = Run.ret (none, after)) ↔
      ping master.DB ctx = none ∧ cfg.Replicas = [] := by
  unfold DBConfig.CheckHealth
  simp only [hmaster, ResolverDB.CheckHealth, List.length_map, List.map_map]
  constructor
  · rintro ⟨after, h⟩
    by_cases hc : ping master.DB ctx = none ∧ cfg.Replicas.length = 0
    · exact ⟨hc.1, List.length_eq_zero.mp hc.2⟩
    · rw [if_neg hc] at h
      simp only [Run.ret.injEq, Prod.mk.injEq] at h
      by_cases hr : cfg.Replicas = []
      · have hm : ping master.DB ctx ≠ none := fun hm => hc ⟨hm, by simp [hr]⟩
        cases hp : ping master.DB ctx with
        | none => exact absurd hp hm
        | some e => simp [hr, hp] at h
      · exact absurd h.1 (foldl_replica_error _ _ (by simpa using hr))
  · rintro ⟨hm, hr⟩
    simp [hm, hr]

/-- C11 (defect): for a master and one replica whose pings all succeed,
`CheckHealth` returns the error `replica error: <nil>`, not nil. -/
theorem CheckHealth_healthy_replica_reports_error :
    sampleDB.Config.Master = some sampleMaster ∧
      sampleDB.Config.Replicas = [sampleReplica] ∧
      ∃ after, sampleDB.Config.CheckHealth (fun _ _ => none) { done := false } =
        Run.ret (some (GoError.other (str "replica error: <nil>\n")), after) :=
  ⟨rfl, rfl, _, rfl⟩

/-! ## Registration -/

/-- C12 (defect): `Register` stores a balancer built for the number of
replicas, but of the other variant than the one asked for: round-robin for a
`*RandomBalancer`, random for a `*RoundRobalancer`; round-robin when the
policy is unset. -/
theorem Register_swaps_policy :
    (∃ d pool,
        Register { id := 1 } { sampleDB.Config with Policy := some (NewRandomBalancer 1) } [] =
          Run.ret (Registered.ok d pool) ∧
        d.Config.Policy = some (NewRoundRobalancer 1)) ∧
      (∃ d pool,
        Register { id := 1 } { sampleDB.Config with Policy := some (NewRoundRobalancer 1) } [] =
          Run.ret (Registered.ok d pool) ∧
        d.Config.Policy = some (NewRandomBalancer 1)) ∧
      ∃ d pool,
        Register { id := 1 } { sampleDB.Config with Policy := none } [] =
          Run.ret (Registered.ok d pool) ∧
        d.Config.Policy = some (NewRoundRobalancer 1) :=
  ⟨⟨_, _, rfl, rfl⟩, ⟨_, _, rfl, rfl⟩, ⟨_, _, rfl, rfl⟩⟩

/-! ## Concurrent callers of `DoChan` -/

theorem Flights_Evict_eq (s : Flights) (clock : Int) (query : GoString) :
    s.Evict clock query = { s with evictior := (s.evictior.HasEvicted clock).2 } := by
  simp [Flights.Evict, HasEvicted_fst]

theorem lookup_append_new (l : List (GoString × InFlight)) (key : GoString) (c : InFlight)
    (h : l.lookup key = none) : (l ++ [(key, c)]).lookup key = some c := by
  induction l with
  | nil => simp [List.lookup]
  | cons p l ih =>
    obtain ⟨k, v⟩ := p
    simp only [List.lookup_cons, List.cons_append] at h ⊢
    cases hk : key == k
    · simp only [hk] at h
      exact ih h
    · simp [hk] at h

theorem lookup_addChan (l : List (GoString × InFlight)) (key : GoString) (ch : Nat)
    (c : InFlight) (h : l.lookup key = some c) :
    (addChan key ch l).lookup key = some { c with chans := c.chans ++ [ch] } := by
  induction l with
  | nil => simp [List.lookup] at h
  | cons p l ih =>
    obtain ⟨k, v⟩ := p
    simp only [List.lookup_cons] at h
    simp only [addChan]
    cases hk : key == k
    · simp only [hk] at h
      simp only [Bool.false_eq_true, if_false, List.lookup_cons, hk]
      exact ih h
    · simp only [hk, Option.some.injEq] at h
      subst h
      simp [List.lookup_cons, hk]

/-- While the call under `key` is in flight, the steps of further calls of
`DoChan` with that key add their channels to it and invoke no producer. -/
theorem run_on_key (key : GoString) (rest : List Event) (s : Flights) (c : InFlight)
    (hget : s.get key = some c) (hrest : ∀ e ∈ rest, e.onKey key = true) :
    (s.run rest).get key = some { c with chans := c.chans ++ channelsOf rest } ∧
      (s.run rest).invoked = s.invoked ∧ (s.run rest).received = s.received := by
  induction rest generalizing s c with
  | nil => simp [Flights.run, channelsOf, hget]
  | cons e rest ih =>
    have hrest2 : ∀ e ∈ rest, e.onKey key = true := fun x hx =>
      hrest x (List.mem_cons_of_mem _ hx)
    have he := hrest e (List.mem_cons_self _ _)
    cases e with
    | evict clock query =>
      have h2 : (s.Evict clock query).get key = some c := by
        rw [Flights_Evict_eq]
        exact hget
      obtain ⟨h3, h4, h5⟩ := ih (s.Evict clock query) c h2 hrest2
      refine ⟨?_, ?_, ?_⟩
      · simpa [Flights.run, Flights.step, channelsOf] using h3
      · rw [Flights.run, Flights.step, h4, Flights_Evict_eq]
      · rw [Flights.run, Flights.step, h5, Flights_Evict_eq]
    | doChan ch query fn =>
      have hq : query = key := by simpa [Event.onKey] using he
      subst hq
      have hl : s.m.lookup query = some c := hget
      have h2 : (s.DoChan ch query fn).get query =
          some { c with chans := c.chans ++ [ch] } := by
        simp only [Flights.DoChan, hl, Flights.get]
        exact lookup_addChan _ _ _ _ hl
      obtain ⟨h3, h4, h5⟩ := ih (s.DoChan ch query fn) _ h2 hrest2
      refine ⟨?_, ?_, ?_⟩
      · simpa [Flights.run, Flights.step, channelsOf] using h3
      · rw [Flights.run, Flights.step, h4]
        simp [Flights.DoChan, hl]
      · rw [Flights.run, Flights.step, h5]
        simp [Flights.DoChan, hl]
    | finish query => simp [Event.onKey] at he
    | finishForgotten i => simp [Event.onKey] at he

/-- A single caller at a koalescer at rest receives what the method `DoChan`
followed from entry to return yields. -/
theorem single_caller_agrees (ko : QueryKoalescer) (s : Flights) (key : GoString)
    (clock : Int) (ch : Nat) (fn : Producer) (hko : ko.g.get key = none)
    (hs : s.get key = none) :
    ((s.run [Event.evict clock key, Event.doChan ch key (fn ()).1]).finish key).received =
      s.received ++ [(ch, (ko.DoChan clock key fn).1)] := by
  have hl : s.m.lookup key = none := hs
  have h1 : ((s.Evict clock key).DoChan ch key (fn ()).1).m.lookup key =
      some { val := (fn ()).1.1, err := (fn ()).1.2, chans := [ch] } := by
    rw [Flights_Evict_eq]
    simp only [Flights.DoChan, hl]
    exact lookup_append_new _ _ _ hl
  have hrec : ((s.Evict clock key).DoChan ch key (fn ()).1).received = s.received := by
    rw [Flights_Evict_eq]
    simp [Flights.DoChan, hl]
  rw [DoChan_fresh _ _ _ _ hko]
  simp only [Flights.run, Flights.step, Flights.finish, h1, hrec, InFlight.publish]
  simp

/-- C13: when no call is in flight under `key`, let a caller enter
`DoChan(key, fn)` and let the steps of any number of further calls of
`DoChan` with that key follow, in any interleaving, before the producer
returns.  Then one producer has been invoked, that of the first caller, and
when it returns every caller receives on its channel the value and the error
that producer returned. -/
theorem DoChan_concurrent_calls (s : Flights) (key : GoString) (clock : Int) (ch : Nat)
    (fn : Dyn × Option GoError) (rest : List Event)
    (hfree : s.get key = none) (hrest : ∀ e ∈ rest, e.onKey key = true) :
    (s.run (Event.evict clock key :: Event.doChan ch key fn :: rest)).invoked =
        s.invoked ++ [ch] ∧
      (s.run (Event.evict clock key :: Event.doChan ch key fn :: rest)).get key =
        some { val := fn.1, err := fn.2, chans := ch :: channelsOf rest } ∧
      ((s.run (Event.evict clock key :: Event.doChan ch key fn :: rest)).finish key).invoked =
        s.invoked ++ [ch] ∧
      ((s.run (Event.evict clock key :: Event.doChan ch key fn :: rest)).finish key).received =
        s.received ++ (ch :: channelsOf rest).map fun c =>
          (c, { Val := fn.1, Err := fn.2, Shared := decide (0 < (channelsOf rest).length) }) := by
  have hl : s.m.lookup key = none := hfree
  have h1 : ((s.Evict clock key).DoChan ch key fn).get key =
      some { val := fn.1, err := fn.2, chans := [ch] } := by
    rw [Flights_Evict_eq]
    simp only [Flights.DoChan, hl, Flights.get]
    exact lookup_append_new _ _ _ hl
  have hinv : ((s.Evict clock key).DoChan ch key fn).invoked = s.invoked ++ [ch] := by
    rw [Flights_Evict_eq]
    simp [Flights.DoChan, hl]
  have hrec : ((s.Evict clock key).DoChan ch key fn).received = s.received := by
    rw [Flights_Evict_eq]
    simp [Flights.DoChan, hl]
  obtain ⟨h2, h3, h4⟩ := run_on_key key rest _ _ h1 hrest
  have hrun : s.run (Event.evict clock key :: Event.doChan ch key fn :: rest) =
      ((s.Evict clock key).DoChan ch key fn).run rest := rfl
  rw [hrun]
  have h2b : (((s.Evict clock key).DoChan ch key fn).run rest).m.lookup key =
      some { val := fn.1, err := fn.2, chans := ch :: channelsOf rest } := by
    simpa [Flights.get] using h2
  refine ⟨by rw [h3, hinv], by simpa [Flights.get] using h2, ?_, ?_⟩
  · simp only [Flights.finish, h2b]
    rw [h3, hinv]
  · simp only [Flights.finish, h2b, h4, hrec, InFlight.publish]
    simp

theorem DoChan_concurrent_calls_witness :
    sampleFlights.get (str "adder") = none ∧
      (∀ e ∈ sampleSchedule, e.onKey (str "adder") = true) ∧
      ((sampleFlights.run (Event.evict 0 (str "adder") ::
          Event.doChan 1 (str "adder") (Dyn.other 1, none) :: sampleSchedule)).finish
            (str "adder")).invoked = sampleFlights.invoked ++ [1] ∧
      ((sampleFlights.run (Event.evict 0 (str "adder") ::
          Event.doChan 1 (str "adder") (Dyn.other 1, none) :: sampleSchedule)).finish
            (str "adder")).received =
        sampleFlights.received ++ (1 :: channelsOf sampleSchedule).map fun c =>
          (c, { Val := Dyn.other 1, Err := none,
                Shared := decide (0 < (channelsOf sampleSchedule).length) }) :=
  ⟨rfl, by decide,
    (DoChan_concurrent_calls sampleFlights (str "adder") 0 1 (Dyn.other 1, none) sampleSchedule
      rfl (by decide)).2.2⟩

end dbresolver
